import Mathlib

/-!
# LogMonitor: transcoding, console sink and monitor dispatch

A shallow embedding of `Utility.cpp`, `LogWriter.h` and `LogMonitorAPI.cpp`.

* A `std::wstring` is a `List Nat` of 16-bit code units (`wchar_t` on Windows), a byte
  buffer or `std::string` is a `List Nat` of bytes.  Range facts are stated with
  `isBytes` and `WellFormedUtf16` where a theorem needs them.
* `size_t` is 64 bits wide (`npos = 2^64 - 1`); unsigned arithmetic wraps.  `int` is 32
  bits wide, a cast to it wraps (`toInt32`); `DWORD` is 32 bits wide.
* Plain `char` is the signed 8-bit type of the Windows targets the program is built for.
* The Win32 routines the source calls (`WideCharToMultiByte`, `MultiByteToWideChar` with
  code page `CP_UTF8`, `IsTextUnicode`, the `EtwMonitor` constructor, `OpenConfigFile`,
  the date and time formatting of the system clock) are not part of the repository.  The
  two code-page routines are modelled by the UTF-8 / UTF-16 encoding forms; the others
  are parameters.
-/

namespace LogMonitor

/-! ## Strings and machine integers -/

/-- Every element is an 8-bit byte. -/
def isBytes (B : List Nat) : Bool := B.all (fun b => decide (b < 256))

/-- The code units of a wide string literal. -/
def L (s : String) : List Nat := s.toList.map Char.toNat

/-- A value cast to the 32-bit type `int`: reduction to the range from `-2^31`. -/
def toInt32 (n : Int) : Int := (n + 2147483648) % 4294967296 - 2147483648

/-- The largest `int`. -/
def INT_MAX : Int := 2147483647

/-- A value cast to the 32-bit unsigned type `DWORD`. -/
def toDWORD (n : Int) : Nat := (n % 4294967296).toNat

/-- The number of values of `size_t`. -/
def SIZE_T_RANGE : Nat := 2 ^ 64

/-- The constant `std::wstring::npos`, the largest `size_t`. -/
def npos : Nat := SIZE_T_RANGE - 1

/-- The `std::wstring` built from a `const wchar_t*`: the units before the first NUL. -/
def wstringOfCStr : List Nat → List Nat
  | [] => []
  | u :: rest => if u = 0 then [] else u :: wstringOfCStr rest

/-- Scan for `find_last_of`: `i` is the index of the head of the list, `best` the last
match seen so far. -/
def find_last_of_from (ch : Nat) : List Nat → Nat → Nat → Nat
  | [], _, best => best
  | u :: rest, i, best => find_last_of_from ch rest (i + 1) (if u = ch then i else best)

/-- The call `s.find_last_of(ch)` for a one-character set: the index of the last
occurrence of `ch`, or `npos`. -/
def find_last_of (s : List Nat) (ch : Nat) : Nat := find_last_of_from ch s 0 npos

/-- Writing `src` at the start of the buffer `dst` (a `resize`d string filled through a
pointer to its first element). -/
def overwrite (dst src : List Nat) : List Nat := src ++ dst.drop src.length

/-! ## UTF-8 / UTF-16 encoding forms behind the `CP_UTF8` conversions

The routines `WideCharToMultiByte` and `MultiByteToWideChar` belong to the operating
system.  They are modelled here for the code page `CP_UTF8` with flags 0, the only way
`WideStringToUtf8` and `ConvertStringToUTF16` call them: the conversion between the
UTF-16 and UTF-8 encoding forms with U+FFFD put in place of what cannot be converted,
and the size conventions of the two calls.  The sizes are `int` values: a negative
source size stands for a NUL-terminated source, converted with its terminator, and a
result whose size is past `INT_MAX` cannot be returned, the call fails with 0. -/

/-- High (leading) surrogate code unit. -/
def isHighSurrogate (u : Nat) : Bool := decide (0xD800 ≤ u) && decide (u < 0xDC00)

/-- Low (trailing) surrogate code unit. -/
def isLowSurrogate (u : Nat) : Bool := decide (0xDC00 ≤ u) && decide (u < 0xE000)

/-- Any surrogate code unit. -/
def isSurrogate (u : Nat) : Bool := decide (0xD800 ≤ u) && decide (u < 0xE000)

/-- The UTF-8 bytes of a code point. -/
def utf8EncodeCodePoint (c : Nat) : List Nat :=
  if c < 0x80 then [c]
  else if c < 0x800 then [0xC0 + c / 64, 0x80 + c % 64]
  else if c < 0x10000 then [0xE0 + c / 4096, 0x80 + c / 64 % 64, 0x80 + c % 64]
  else [0xF0 + c / 262144, 0x80 + c / 4096 % 64, 0x80 + c / 64 % 64, 0x80 + c % 64]

/-- The UTF-8 bytes of a single unit outside a surrogate pair; an unpaired surrogate is
replaced by U+FFFD. -/
def utf8EncodeUnit (u : Nat) : List Nat :=
  if isSurrogate u then [0xEF, 0xBF, 0xBD] else utf8EncodeCodePoint u

/-- The code point of a surrogate pair. -/
def surrogatePairToCodePoint (hi lo : Nat) : Nat :=
  0x10000 + (hi - 0xD800) * 1024 + (lo - 0xDC00)

/-- Modelled from the spec: the conversion inside the system routine
`WideCharToMultiByte` is not in the sources; the sink converts the wide text to UTF-8.
UTF-16 code units to UTF-8 bytes. -/
def utf16ToUtf8 : List Nat → List Nat
  | [] => []
  | [u] => utf8EncodeUnit u
  | u :: v :: rest =>
    if isHighSurrogate u && isLowSurrogate v then
      utf8EncodeCodePoint (surrogatePairToCodePoint u v) ++ utf16ToUtf8 rest
    else
      utf8EncodeUnit u ++ utf16ToUtf8 (v :: rest)

/-- The UTF-16 units of a decoded code point `c`; `lo` is the least code point the
sequence length may encode.  Overlong forms, surrogates and values past U+10FFFF are
replaced by U+FFFD. -/
def utf16OfCodePoint (lo c : Nat) : List Nat :=
  if decide (c < lo) || isSurrogate c || decide (0x10FFFF < c) then [0xFFFD]
  else if c < 0x10000 then [c]
  else [0xD800 + (c - 0x10000) / 1024, 0xDC00 + (c - 0x10000) % 1024]

/-- Modelled from the spec: the conversion inside the system routine
`MultiByteToWideChar` is not in the sources; the transcoder decodes UTF-8 with a
multi-byte-to-wide conversion that does not read past the buffer.
UTF-8 bytes to UTF-16 code units, one byte at a time.  `need` is the number of
continuation bytes still expected, `acc` the bits gathered so far, `lo` the least code
point of the current sequence length.  A byte that cannot start or continue a sequence,
and a sequence cut short, each give U+FFFD. -/
def utf8ToUtf16 : Nat → Nat → Nat → List Nat → List Nat
  | need, _, _, [] => if need = 0 then [] else [0xFFFD]
  | need, acc, lo, b :: rest =>
    if need ≠ 0 ∧ 0x80 ≤ b ∧ b < 0xC0 then
      if need = 1 then utf16OfCodePoint lo (acc * 64 + b % 64) ++ utf8ToUtf16 0 0 0 rest
      else utf8ToUtf16 (need - 1) (acc * 64 + b % 64) lo rest
    else
      (if need ≠ 0 then [0xFFFD] else []) ++
      (if b < 0x80 then b :: utf8ToUtf16 0 0 0 rest
       else if 0xC2 ≤ b ∧ b < 0xE0 then utf8ToUtf16 1 (b % 32) 0x80 rest
       else if 0xE0 ≤ b ∧ b < 0xF0 then utf8ToUtf16 2 (b % 16) 0x800 rest
       else if 0xF0 ≤ b ∧ b < 0xF5 then utf8ToUtf16 3 (b % 8) 0x10000 rest
       else 0xFFFD :: utf8ToUtf16 0 0 0 rest)

/-- Well-formed UTF-16: 16-bit units, every surrogate part of a high/low pair. -/
def WellFormedUtf16 : List Nat → Bool
  | [] => true
  | [u] => decide (u < 0x10000) && !isSurrogate u
  | u :: v :: rest =>
    if isHighSurrogate u then isLowSurrogate v && WellFormedUtf16 rest
    else decide (u < 0x10000) && !isSurrogate u && WellFormedUtf16 (v :: rest)

/-- Modelled from the spec: the system routine is not in the sources.
The call `WideCharToMultiByte(CP_UTF8, 0, src, cchWideChar, dst, cbMultiByte, NULL,
NULL)`: the return value and the bytes stored at `dst`.  A zero `cchWideChar` fails with
0; a zero `cbMultiByte` only reports the size needed; a buffer that is too small, a
negative `cbMultiByte` and a size past `INT_MAX` fail with 0. -/
def WideCharToMultiByte (lpWideCharStr : List Nat) (cchWideChar cbMultiByte : Int) :
    Int × List Nat :=
  if cchWideChar = 0 ∨ cbMultiByte < 0 then (0, [])
  else
    let source :=
      if cchWideChar < 0 then wstringOfCStr lpWideCharStr ++ [0]
      else lpWideCharStr.take cchWideChar.toNat
    let bytes := utf16ToUtf8 source
    if INT_MAX < (bytes.length : Int) then (0, [])
    else if cbMultiByte = 0 then ((bytes.length : Int), [])
    else if (bytes.length : Int) ≤ cbMultiByte then ((bytes.length : Int), bytes)
    else (0, [])

/-- Modelled from the spec: the system routine is not in the sources.
The call `MultiByteToWideChar(CP_UTF8, 0, src, cbMultiByte, dst, cchWideChar)`: the
return value and the units stored at `dst`, with the same size conventions. -/
def MultiByteToWideChar (lpMultiByteStr : List Nat) (cbMultiByte cchWideChar : Int) :
    Int × List Nat :=
  if cbMultiByte = 0 ∨ cchWideChar < 0 then (0, [])
  else
    let source :=
      if cbMultiByte < 0 then wstringOfCStr lpMultiByteStr ++ [0]
      else lpMultiByteStr.take cbMultiByte.toNat
    let units := utf8ToUtf16 0 0 0 source
    if INT_MAX < (units.length : Int) then (0, [])
    else if cchWideChar = 0 then ((units.length : Int), [])
    else if (units.length : Int) ≤ cchWideChar then ((units.length : Int), units)
    else (0, [])

/-! ## Utility.cpp -/

/-- The flag `IS_TEXT_UNICODE_STATISTICS` of `IsTextUnicode`, a constant of the system
headers. -/
def IS_TEXT_UNICODE_STATISTICS : Int := 0x0002

/-- The function `Utility::IsInputTextUnicode`.  `IsTextUnicode` is the OS heuristic: from the buffer,
its length and the tests asked for it gives the verdict and the tests that passed. -/
def IsInputTextUnicode (IsTextUnicode : List Nat → Int → Int → Bool × Int)
    (InputStream : List Nat) (Length : Int) : Bool :=
  let iResult : Int := -1
  let r := IsTextUnicode InputStream Length iResult
  let bUnicode := r.1
  let iResult := r.2
  if bUnicode && iResult == IS_TEXT_UNICODE_STATISTICS && decide (Length < 100) then false
  else bUnicode

/-- The constant `STR_LEN` of `Utility::SystemTimeToString`. -/
def STR_LEN : Nat := 64

/-- The C string held by a zero-filled array of `STR_LEN` units after a system routine
stored `written` in it: at most `STR_LEN - 1` units, up to the first NUL. -/
def bufferString (written : List Nat) : List Nat := wstringOfCStr (written.take (STR_LEN - 1))

/-- The function `Utility::SystemTimeToString`; `dateStr` and `timeStr` are what
`GetDateFormatEx` and `GetTimeFormatEx` stored for the system time.  The result is
`FormatString(L"%sT%s.000Z", dateStr, timeStr)`. -/
def SystemTimeToString (dateStr timeStr : List Nat) : List Nat :=
  bufferString dateStr ++ L "T" ++ bufferString timeStr ++ L ".000Z"

/-- The function `Utility::WideStringToUtf8`: the returned string and the out-parameter `byte_size`. -/
def WideStringToUtf8 (str : List Nat) : List Nat × Int :=
  let string_length : Int := toInt32 str.length
  let byte_size : Int := (WideCharToMultiByte str string_length 0).1
  if byte_size > 0 then
    let unicode_string := List.replicate byte_size.toNat 0
    (overwrite unicode_string (WideCharToMultiByte str string_length byte_size).2, byte_size)
  else
    ([], byte_size)

/-- Modelled from the spec: the declaration of the enumeration `LM_FILETYPE` is not among
the sources; the spec names the declared encodings (UTF-16 little-endian, UTF-16
big-endian, UTF-8, single-byte) and an unknown one. -/
inductive LM_FILETYPE where
  | FileTypeUnknown
  | ANSI
  | UTF16LE
  | UTF16BE
  | UTF8
  deriving DecidableEq, Repr

/-- The string `wstring((wchar_t*)p, (wchar_t*)(p + n))` over a byte buffer: each pair of
bytes is one unit, low byte first; the pointer difference counts whole units, so a last
odd byte is not part of the range. -/
def reinterpretWide : List Nat → List Nat
  | lo :: hi :: rest => (lo + 256 * hi) :: reinterpretWide rest
  | _ => []

/-- The expression `(TCHAR)(((c << 8) & 0xFF00) + ((c >> 8) & 0xFF))`. -/
def swapBytes (c : Nat) : Nat := (((c <<< 8) &&& 0xFF00) + ((c >>> 8) &&& 0xFF)) % 65536

/-- A byte read as a plain (signed) `char`. -/
def byteToChar (b : Nat) : Int :=
  if b % 256 < 128 then ((b % 256 : Nat) : Int) else ((b % 256 : Nat) : Int) - 256

/-- A `char` converted to `wchar_t` (an unsigned 16-bit type): reduction modulo `2^16`. -/
def charToWchar (c : Int) : Nat := (c % 65536).toNat

/-- The function `Utility::ConvertStringToUTF16`; the list holds the `StringSize` bytes at
`StringPtr`. -/
def ConvertStringToUTF16 (StringPtr : List Nat) (EncodingType : LM_FILETYPE) : List Nat :=
  let StringSize := StringPtr.length
  if StringSize = 0 then []
  else
    match EncodingType with
    | LM_FILETYPE.UTF16LE => reinterpretWide StringPtr
    | LM_FILETYPE.UTF16BE => (reinterpretWide StringPtr).map swapBytes
    | LM_FILETYPE.UTF8 =>
      let size_needed : Int := (MultiByteToWideChar StringPtr (toInt32 StringSize) 0).1
      let Result := List.replicate size_needed.toNat 0
      overwrite Result (MultiByteToWideChar StringPtr (toInt32 StringSize) size_needed).2
    | _ =>
      let tempStr := StringPtr.map byteToChar
      tempStr.map charToWchar

/-- The bytes of a wide string in memory: each unit low byte first. -/
def wideBytesLE : List Nat → List Nat
  | [] => []
  | u :: rest => u % 256 :: u / 256 % 256 :: wideBytesLE rest

/-- The bytes of a wide string written high byte first. -/
def wideBytesBE : List Nat → List Nat
  | [] => []
  | u :: rest => u / 256 % 256 :: u % 256 :: wideBytesBE rest

/-! ## LogWriter.h -/

/-- The local `FormattedString` of `LogWriter::WriteConsoleLog`. -/
def WriteConsoleLog_FormattedString (LogMessage : List Nat) : List Nat :=
  if find_last_of LogMessage 10 != (LogMessage.length + SIZE_T_RANGE - 1) % SIZE_T_RANGE then
    LogMessage ++ [10]
  else
    LogMessage

/-- The wide string that `LogWriter::WriteConsoleLog` hands to `WideStringToUtf8`: the
parameter is built from `FormattedString.c_str()`. -/
def WriteConsoleLog_text (LogMessage : List Nat) : List Nat :=
  wstringOfCStr (WriteConsoleLog_FormattedString LogMessage)

/-- The overload `LogWriter::WriteConsoleLog(const std::wstring&&)`; `stdout` is the list of buffers
given to `WriteFile` on the output handle, oldest first. -/
def WriteConsoleLog (LogMessage : List Nat) (stdout : List (List Nat)) : List (List Nat) :=
  let r := WideStringToUtf8 (WriteConsoleLog_text LogMessage)
  let encoded := r.1
  let size_in_bytes := r.2
  stdout ++ [encoded.take (toDWORD size_in_bytes)]

/-- The overload `LogWriter::WriteConsoleLog(const std::wstring&)`, which passes `LogMessage.c_str()`. -/
def WriteConsoleLog_ref (LogMessage : List Nat) (stdout : List (List Nat)) :
    List (List Nat) :=
  WriteConsoleLog (wstringOfCStr LogMessage) stdout

/-- The three trace helpers of `LogWriter`. -/
inductive TraceLevel where
  | Error
  | Warning
  | Info
  deriving DecidableEq, Repr

/-- The tag a trace helper puts in its format string. -/
def TraceLevel.tag : TraceLevel → String
  | TraceLevel.Error => "ERROR"
  | TraceLevel.Warning => "WARNING"
  | TraceLevel.Info => "INFO"

/-- The message `Utility::FormatString(L"[%s][LOGMONITOR] <TAG>: %s", time, Message)`
built by `TraceError`, `TraceWarning` and `TraceInfo`; `%s` copies a C string. -/
def traceMessage (level : TraceLevel) (time Message : List Nat) : List Nat :=
  L "[" ++ wstringOfCStr time ++ L "][LOGMONITOR] " ++ L level.tag ++ L ": " ++
    wstringOfCStr Message

/-! ## LogMonitorAPI.cpp -/

/-- Modelled from the spec: the enumeration `LogSourceType` is declared outside the
sources; the code names its member `ETW`, the spec calls every other kind unsupported. -/
inductive LogSourceType where
  | EventLog
  | File
  | ETW
  | Process
  deriving DecidableEq, Repr

/-- A configured log source: its `Type` and, for an ETW source (`SourceETW`), its
`Providers`.  `P` is the type `ETWProvider`, declared outside the sources. -/
structure LogSource (P : Type) where
  Type_ : LogSourceType
  Providers : List P

/-- The part of `LoggerSettings` that `StartMonitors` reads. -/
structure LoggerSettings (P : Type) where
  Sources : List (LogSource P)

/-- The process-wide state.  `g_etwMon` is the global monitor pointer (`none` is
`nullptr`), `stdout` the buffers written by `logWriter`.  Two histories are kept for
stating properties: `traces`, the level and message of every trace helper call, and
`etwConstructions`, the provider vector of every `EtwMonitor` construction attempted. -/
structure ProcessState (P M : Type) where
  g_etwMon : Option M
  stdout : List (List Nat)
  traces : List (TraceLevel × List Nat)
  etwConstructions : List (List P)

/-- What the program takes from outside the sources: the `EtwMonitor` constructor (an
error is a thrown exception), the configuration reader `OpenConfigFile` (`none` is a
`false` return) and the date and time strings the system formats for the system time
at the moment of the `n`-th write. -/
structure Env (P M : Type) where
  newEtwMonitor : List P → Except Unit M
  OpenConfigFile : List Nat → Option (LoggerSettings P)
  GetDateFormatEx : Nat → List Nat
  GetTimeFormatEx : Nat → List Nat

section Dispatcher

variable {P M : Type}

/-- The message `CreateEtwMonitor` traces when the construction throws. -/
def invalidProvidersMessage : List Nat :=
  L "Invalid providers. Check them using 'logman query providers'"

/-- The message `StartMonitors` traces for a source of another kind. -/
def unsupportedSourceMessage : List Nat :=
  L "Log source type not supported for monitoring"

/-- The message `StartLogMonitor` traces when the configuration cannot be read. -/
def invalidConfigurationMessage : List Nat :=
  L "Invalid configuration file."

/-- The time string of the `n`-th write. -/
def timeAt (env : Env P M) (n : Nat) : List Nat :=
  SystemTimeToString (env.GetDateFormatEx n) (env.GetTimeFormatEx n)

/-- The helpers `LogWriter::TraceError`, `TraceWarning` and `TraceInfo`. -/
def Trace (env : Env P M) (level : TraceLevel) (Message : List Nat)
    (s : ProcessState P M) : ProcessState P M :=
  let formattedMessage := traceMessage level (timeAt env s.stdout.length) Message
  { s with
    stdout := WriteConsoleLog_ref formattedMessage s.stdout
    traces := s.traces ++ [(level, Message)] }

/-- The function `InitializeEtwMonitor`: push every provider of the source onto the vector. -/
def InitializeEtwMonitor (sourceETW : LogSource P) (etwProviders : List P) : List P :=
  sourceETW.Providers.foldl (fun acc provider => acc ++ [provider]) etwProviders

/-- The function `CreateEtwMonitor`: the `try` block assigns the new monitor to `g_etwMon`, the
`catch (...)` block traces an error. -/
def CreateEtwMonitor (env : Env P M) (etwProviders : List P) (s : ProcessState P M) :
    Except Unit (ProcessState P M) :=
  let s := { s with etwConstructions := s.etwConstructions ++ [etwProviders] }
  match env.newEtwMonitor etwProviders with
  | Except.ok mon => Except.ok { s with g_etwMon := some mon }
  | Except.error _ =>
    Except.ok (Trace env TraceLevel.Error invalidProvidersMessage s)

/-- The loop of `StartMonitors` over `settings.Sources`. -/
def StartMonitors_loop (env : Env P M) :
    List (LogSource P) → List P → ProcessState P M → List P × ProcessState P M
  | [], etwProviders, s => (etwProviders, s)
  | source :: rest, etwProviders, s =>
    match source.Type_ with
    | LogSourceType.ETW =>
      StartMonitors_loop env rest (InitializeEtwMonitor source etwProviders) s
    | _ =>
      StartMonitors_loop env rest etwProviders
        (Trace env TraceLevel.Warning unsupportedSourceMessage s)

/-- The function `StartMonitors`: the source loop, then one monitor construction when
the provider vector is not empty. -/
def StartMonitors (env : Env P M) (settings : LoggerSettings P) (s : ProcessState P M) :
    Except Unit (ProcessState P M) :=
  let r := StartMonitors_loop env settings.Sources [] s
  let etwProviders := r.1
  if !etwProviders.isEmpty then CreateEtwMonitor env etwProviders r.2
  else Except.ok r.2

/-- The function `StartLogMonitor`: the returned flag and the state afterwards. -/
def StartLogMonitor (env : Env P M) (configPath : List Nat) (s : ProcessState P M) :
    Except Unit (Bool × ProcessState P M) :=
  match env.OpenConfigFile configPath with
  | some settings =>
    match StartMonitors env settings s with
    | Except.ok s1 => Except.ok (true, s1)
    | Except.error e => Except.error e
  | none => Except.ok (false, Trace env TraceLevel.Error invalidConfigurationMessage s)

/-- The number of trace lines of a level. -/
def traceCount (level : TraceLevel) (s : ProcessState P M) : Nat :=
  (s.traces.filter (fun t => decide (t.1 = level))).length

/-- The provider lists of the ETW sources, concatenated in configuration order. -/
def flattenProviders (sources : List (LogSource P)) : List P :=
  ((sources.filter (fun src => decide (src.Type_ = LogSourceType.ETW))).map
    (fun src => src.Providers)).flatten

/-- The sources of a supported kind. -/
def supportedSources (sources : List (LogSource P)) : List (LogSource P) :=
  sources.filter (fun src => decide (src.Type_ = LogSourceType.ETW))

/-- The number of sources whose kind is not event tracing. -/
def unsupportedCount (sources : List (LogSource P)) : Nat :=
  (sources.filter (fun src => decide (src.Type_ ≠ LogSourceType.ETW))).length

/-- The state before any source is processed: no monitor, nothing written. -/
def ProcessState.initial : ProcessState P M :=
  { g_etwMon := none, stdout := [], traces := [], etwConstructions := [] }

/-- The trace lines expected from one construction attempt: none when the constructor
returns, one error line when it throws. -/
def constructionTraces (env : Env P M) (etwProviders : List P) :
    List (TraceLevel × List Nat) :=
  match env.newEtwMonitor etwProviders with
  | Except.ok _ => []
  | Except.error _ => [(TraceLevel.Error, invalidProvidersMessage)]

/-- The bytes expected on the output for one unsupported source: the UTF-8 form of the
warning line with its time string and one line feed. -/
def unsupportedSourceLine (time : List Nat) : List Nat :=
  utf16ToUtf8 (L "[" ++ time ++
    L "][LOGMONITOR] WARNING: Log source type not supported for monitoring\n")

/-- The bytes expected on the output for a failed construction: the UTF-8 form of the
error line about the providers with its time string and one line feed. -/
def invalidProvidersLine (time : List Nat) : List Nat :=
  utf16ToUtf8 (L "[" ++ time ++
    L "][LOGMONITOR] ERROR: Invalid providers. Check them using 'logman query providers'\n")

/-- The writes expected for `count` unsupported sources, the first being write number
`start`. -/
def unsupportedSourceLines (env : Env P M) : Nat → Nat → List (List Nat)
  | _, 0 => []
  | start, count + 1 =>
    unsupportedSourceLine (timeAt env start) :: unsupportedSourceLines env (start + 1) count

/-- The writes expected from one construction attempt made when `n` writes were done:
none when the constructor returns, the error line when it throws. -/
def constructionLines (env : Env P M) (etwProviders : List P) (n : Nat) : List (List Nat) :=
  match env.newEtwMonitor etwProviders with
  | Except.ok _ => []
  | Except.error _ => [invalidProvidersLine (timeAt env n)]

/-- The monitor pointer expected after one construction attempt. -/
def constructionResult (env : Env P M) (etwProviders : List P) (old : Option M) : Option M :=
  match env.newEtwMonitor etwProviders with
  | Except.ok mon => some mon
  | Except.error _ => old

end Dispatcher

/-- An environment whose monitor constructor accepts every provider list. -/
def acceptingEnv : Env Nat Nat :=
  { newEtwMonitor := fun ps => Except.ok ps.length
    OpenConfigFile := fun _ => none
    GetDateFormatEx := fun _ => L "2024-01-01"
    GetTimeFormatEx := fun _ => L "00:00:00" }

/-- An environment whose monitor constructor rejects every provider list and whose
configuration holds one ETW source with one provider. -/
def rejectingEnv : Env Nat Nat :=
  { newEtwMonitor := fun _ => Except.error ()
    OpenConfigFile := fun _ => some { Sources := [{ Type_ := LogSourceType.ETW, Providers := [7] }] }
    GetDateFormatEx := fun _ => L "2024-01-01"
    GetTimeFormatEx := fun _ => L "00:00:00" }

end LogMonitor

namespace LogMonitor

/-! ## Transcoder: byte order and widening -/

theorem and_0xFF (x : Nat) : x &&& 0xFF = x % 256 := by
  have h := Nat.and_pow_two_sub_one_eq_mod x 8
  simpa using h

theorem shiftLeft_and_0xFF00 (c : Nat) : (c <<< 8) &&& 0xFF00 = c % 256 * 256 := by
  have h : (0xFF00 : Nat) = (2 ^ 8 - 1) <<< 8 := by decide
  have h2 : c % 256 * 256 = (c % 2 ^ 8) <<< 8 := by rw [Nat.shiftLeft_eq]; norm_num
  rw [h, h2]
  apply Nat.eq_of_testBit_eq
  intro i
  simp only [Nat.testBit_and, Nat.testBit_shiftLeft, Nat.testBit_two_pow_sub_one,
    Nat.testBit_mod_two_pow]
  cases decide (i ≥ 8) <;> cases decide (i - 8 < 8) <;> simp

/-- The byte swap of the UTF-16BE branch in arithmetic form. -/
theorem swapBytes_eq (c : Nat) : swapBytes c = c % 256 * 256 + c / 256 % 256 := by
  unfold swapBytes
  rw [shiftLeft_and_0xFF00, and_0xFF, Nat.shiftRight_eq_div_pow]
  have h : (2 : Nat) ^ 8 = 256 := by norm_num
  rw [h]
  omega

theorem wideBytesBE_swapped_reinterpretWide : ∀ (B : List Nat), isBytes B = true →
    B.length % 2 = 0 → wideBytesBE ((reinterpretWide B).map swapBytes) = B
  | [], _, _ => rfl
  | [_], _, h => by simp at h
  | lo :: hi :: rest, hB, hlen => by
    simp only [isBytes, List.all_cons, Bool.and_eq_true, decide_eq_true_eq] at hB
    have ih := wideBytesBE_swapped_reinterpretWide rest
      (by simpa [isBytes] using hB.2.2) (by simp only [List.length_cons] at hlen; omega)
    have e1 : (lo + 256 * hi) % 256 = lo := by omega
    have e2 : (lo + 256 * hi) / 256 % 256 = hi := by omega
    have e3 : (lo * 256 + hi) / 256 % 256 = lo := by omega
    have e4 : (lo * 256 + hi) % 256 = hi := by omega
    simp only [reinterpretWide, List.map_cons, wideBytesBE, ih, swapBytes_eq, e1, e2, e3, e4]

theorem wideBytesLE_reswapped_reinterpretWide : ∀ (B : List Nat), isBytes B = true →
    B.length % 2 = 0 →
    wideBytesLE (((reinterpretWide B).map swapBytes).map swapBytes) = B
  | [], _, _ => rfl
  | [_], _, h => by simp at h
  | lo :: hi :: rest, hB, hlen => by
    simp only [isBytes, List.all_cons, Bool.and_eq_true, decide_eq_true_eq] at hB
    have ih := wideBytesLE_reswapped_reinterpretWide rest
      (by simpa [isBytes] using hB.2.2) (by simp only [List.length_cons] at hlen; omega)
    have e1 : (lo + 256 * hi) % 256 = lo := by omega
    have e2 : (lo + 256 * hi) / 256 % 256 = hi := by omega
    have e3 : (lo * 256 + hi) / 256 % 256 = lo := by omega
    have e4 : (lo * 256 + hi) % 256 = hi := by omega
    have e5 : (hi * 256 + lo) % 256 = lo := by omega
    have e6 : (hi * 256 + lo) / 256 % 256 = hi := by omega
    simp only [reinterpretWide, List.map_cons, wideBytesLE, ih, swapBytes_eq, e1, e2, e3, e4,
      e5, e6]

theorem ConvertStringToUTF16_UTF16BE_eq (B : List Nat) :
    ConvertStringToUTF16 B LM_FILETYPE.UTF16BE = (reinterpretWide B).map swapBytes := by
  cases B with
  | nil => rfl
  | cons b rest => simp [ConvertStringToUTF16]

theorem ConvertStringToUTF16_UTF16LE_eq (B : List Nat) :
    ConvertStringToUTF16 B LM_FILETYPE.UTF16LE = reinterpretWide B := by
  cases B with
  | nil => rfl
  | cons b rest => simp [ConvertStringToUTF16]

theorem reinterpretWide_length : ∀ (B : List Nat), (reinterpretWide B).length = B.length / 2
  | [] => rfl
  | [_] => by simp [reinterpretWide]
  | _ :: _ :: rest => by
    simp only [reinterpretWide, List.length_cons, reinterpretWide_length rest]
    omega

theorem reinterpretWide_getElem? : ∀ (B : List Nat) (i : Nat), i < B.length / 2 →
    (reinterpretWide B)[i]? = some (B.getD (2 * i) 0 + 256 * B.getD (2 * i + 1) 0)
  | [], _, h => by simp at h
  | [_], _, h => by simp only [List.length_cons, List.length_nil] at h; omega
  | lo :: hi :: rest, 0, _ => by simp [reinterpretWide]
  | lo :: hi :: rest, i + 1, h => by
    have hi2 : i < rest.length / 2 := by simp only [List.length_cons] at h; omega
    have ih := reinterpretWide_getElem? rest i hi2
    have e1 : 2 * (i + 1) = (2 * i + 1) + 1 := by omega
    have e2 : 2 * (i + 1) + 1 = (2 * i + 1 + 1) + 1 := by omega
    simp only [reinterpretWide, List.getElem?_cons_succ, ih, e1, e2, List.getD_cons_succ]

/-- C2, counterexample: for the one-byte buffer 0x41 declared UTF16BE neither the
re-swapped units in memory order nor the units written high byte first give back the
buffer. -/
theorem ConvertStringToUTF16_UTF16BE_odd_buffer :
    isBytes [0x41] = true ∧
    wideBytesLE ((ConvertStringToUTF16 [0x41] LM_FILETYPE.UTF16BE).map swapBytes) ≠ [0x41] ∧
    wideBytesBE (ConvertStringToUTF16 [0x41] LM_FILETYPE.UTF16BE) ≠ [0x41] := by
  decide

/-- C2, amended: for every byte buffer of even length declared UTF16BE, swapping the two
bytes of every unit of the result again and laying the units out in memory order gives
back the buffer, and so does writing every unit of the result high byte first. -/
theorem ConvertStringToUTF16_UTF16BE_roundtrip (B : List Nat) (hB : isBytes B = true)
    (hlen : B.length % 2 = 0) :
    wideBytesLE ((ConvertStringToUTF16 B LM_FILETYPE.UTF16BE).map swapBytes) = B ∧
    wideBytesBE (ConvertStringToUTF16 B LM_FILETYPE.UTF16BE) = B := by
  rw [ConvertStringToUTF16_UTF16BE_eq]
  exact ⟨wideBytesLE_reswapped_reinterpretWide B hB hlen,
    wideBytesBE_swapped_reinterpretWide B hB hlen⟩

theorem ConvertStringToUTF16_UTF16BE_roundtrip_witness :
    wideBytesLE ((ConvertStringToUTF16 [0xFE, 0xFF, 0x00, 0x41] LM_FILETYPE.UTF16BE).map
      swapBytes) = [0xFE, 0xFF, 0x00, 0x41] ∧
    wideBytesBE (ConvertStringToUTF16 [0xFE, 0xFF, 0x00, 0x41] LM_FILETYPE.UTF16BE) =
      [0xFE, 0xFF, 0x00, 0x41] :=
  ConvertStringToUTF16_UTF16BE_roundtrip [0xFE, 0xFF, 0x00, 0x41] (by decide) (by decide)

/-- C6: for every non-empty byte buffer of even length declared UTF16LE the result has
half as many units as the buffer has bytes (twice its length is the length of the
buffer), unit `i` is byte `2i` plus 256 times byte `2i+1`, and the buffer FF FE 41 00
gives the two units FEFF and 0041, the byte-order mark kept. -/
theorem ConvertStringToUTF16_UTF16LE_units (B : List Nat) (hne : B ≠ [])
    (hlen : B.length % 2 = 0) :
    (ConvertStringToUTF16 B LM_FILETYPE.UTF16LE).length = B.length / 2 ∧
    2 * (ConvertStringToUTF16 B LM_FILETYPE.UTF16LE).length = B.length ∧
    (∀ i, i < B.length / 2 →
      (ConvertStringToUTF16 B LM_FILETYPE.UTF16LE)[i]? =
        some (B.getD (2 * i) 0 + 256 * B.getD (2 * i + 1) 0)) ∧
    ConvertStringToUTF16 [0xFF, 0xFE, 0x41, 0x00] LM_FILETYPE.UTF16LE = [0xFEFF, 0x0041] := by
  have hsize : ¬ B.length = 0 := fun h => hne (List.length_eq_zero.mp h)
  have hconv : ConvertStringToUTF16 B LM_FILETYPE.UTF16LE = reinterpretWide B := by
    simp only [ConvertStringToUTF16, if_neg hsize]
  rw [hconv, reinterpretWide_length]
  exact ⟨rfl, by omega, reinterpretWide_getElem? B, by decide⟩

theorem ConvertStringToUTF16_UTF16LE_units_witness :
    (ConvertStringToUTF16 [0xFF, 0xFE, 0x41, 0x00] LM_FILETYPE.UTF16LE).length = 4 / 2 ∧
    2 * (ConvertStringToUTF16 [0xFF, 0xFE, 0x41, 0x00] LM_FILETYPE.UTF16LE).length = 4 ∧
    (∀ i, i < 4 / 2 →
      (ConvertStringToUTF16 [0xFF, 0xFE, 0x41, 0x00] LM_FILETYPE.UTF16LE)[i]? =
        some ([0xFF, 0xFE, 0x41, 0x00].getD (2 * i) 0 +
          256 * [0xFF, 0xFE, 0x41, 0x00].getD (2 * i + 1) 0)) ∧
    ConvertStringToUTF16 [0xFF, 0xFE, 0x41, 0x00] LM_FILETYPE.UTF16LE = [0xFEFF, 0x0041] :=
  ConvertStringToUTF16_UTF16LE_units [0xFF, 0xFE, 0x41, 0x00] (by decide) (by decide)

/-! ## Transcoder: single-byte default -/

/-- The default branch of `ConvertStringToUTF16` on bytes: a byte below 0x80 keeps its
value, a byte from 0x80 on is sign-extended to the unit 0xFF00 plus the byte. -/
theorem charToWchar_byteToChar (b : Nat) (hb : b < 256) :
    charToWchar (byteToChar b) = if b < 128 then b else 0xFF00 + b := by
  unfold charToWchar byteToChar
  have hm : b % 256 = b := Nat.mod_eq_of_lt hb
  rw [hm]
  split_ifs with h
  · omega
  · omega

/-- C5, at the failing input: the one-byte buffer E9 declared ANSI (or with an unknown
tag) is converted to the single unit FFE9, not to the unit 00E9. -/
theorem ConvertStringToUTF16_default_high_byte :
    ConvertStringToUTF16 [0xE9] LM_FILETYPE.ANSI = [0xFFE9] ∧
    ConvertStringToUTF16 [0xE9] LM_FILETYPE.FileTypeUnknown = [0xFFE9] ∧
    ConvertStringToUTF16 [0x41, 0x7F, 0x80, 0xFF] LM_FILETYPE.ANSI =
      [0x41, 0x7F, 0xFF80, 0xFFFF] := by
  decide

/-! ## Encoding classifier -/

/-- C4: with the heuristic `IsTextUnicode` as an oracle, `IsInputTextUnicode` answers
"not Unicode" whenever the oracle reports the statistical test as its only evidence and
the length is below 100, and in every other case (length at least 100, or evidence
other than exactly the statistical flag, or a negative verdict) it returns the verdict
of the oracle. -/
theorem IsInputTextUnicode_bias (IsTextUnicode : List Nat → Int → Int → Bool × Int)
    (InputStream : List Nat) (Length : Int) :
    ((IsTextUnicode InputStream Length (-1)).2 = IS_TEXT_UNICODE_STATISTICS → Length < 100 →
      IsInputTextUnicode IsTextUnicode InputStream Length = false) ∧
    ((100 ≤ Length ∨ (IsTextUnicode InputStream Length (-1)).2 ≠ IS_TEXT_UNICODE_STATISTICS ∨
        (IsTextUnicode InputStream Length (-1)).1 = false) →
      IsInputTextUnicode IsTextUnicode InputStream Length =
        (IsTextUnicode InputStream Length (-1)).1) := by
  constructor
  · intro hflag hlen
    simp only [IsInputTextUnicode, hflag, hlen, beq_self_eq_true, decide_True, Bool.and_true]
    cases (IsTextUnicode InputStream Length (-1)).1 <;> simp
  · intro h
    simp only [IsInputTextUnicode]
    rcases h with h | h | h
    · have : ¬ Length < 100 := by omega
      simp [this]
    · have : ((IsTextUnicode InputStream Length (-1)).2 == IS_TEXT_UNICODE_STATISTICS) = false :=
        beq_eq_false_iff_ne.mpr h
      simp [this]
    · simp [h]

theorem IsInputTextUnicode_bias_witness :
    IsInputTextUnicode (fun _ _ _ => (true, 2)) (L "this program can break") 22 = false ∧
    IsInputTextUnicode (fun _ _ _ => (true, 3)) (L "this program can break") 22 = true :=
  ⟨(IsInputTextUnicode_bias (fun _ _ _ => (true, 2)) (L "this program can break") 22).1
      rfl (by decide),
   (IsInputTextUnicode_bias (fun _ _ _ => (true, 3)) (L "this program can break") 22).2
      (Or.inr (Or.inl (by decide)))⟩

/-! ## UTF-8 round trip -/

theorem utf8ToUtf16_ascii (b : Nat) (rest : List Nat) (h : b < 0x80) :
    utf8ToUtf16 0 0 0 (b :: rest) = b :: utf8ToUtf16 0 0 0 rest := by
  simp [utf8ToUtf16, h]

theorem utf8ToUtf16_lead2 (b : Nat) (rest : List Nat) (h : 0xC2 ≤ b ∧ b < 0xE0) :
    utf8ToUtf16 0 0 0 (b :: rest) = utf8ToUtf16 1 (b % 32) 0x80 rest := by
  have h0 : ¬ b < 0x80 := by omega
  simp [utf8ToUtf16, h, h0]

theorem utf8ToUtf16_lead3 (b : Nat) (rest : List Nat) (h : 0xE0 ≤ b ∧ b < 0xF0) :
    utf8ToUtf16 0 0 0 (b :: rest) = utf8ToUtf16 2 (b % 16) 0x800 rest := by
  have h0 : ¬ b < 0x80 := by omega
  have h1 : ¬ (0xC2 ≤ b ∧ b < 0xE0) := by omega
  simp [utf8ToUtf16, h, h0, h1]

theorem utf8ToUtf16_lead4 (b : Nat) (rest : List Nat) (h : 0xF0 ≤ b ∧ b < 0xF5) :
    utf8ToUtf16 0 0 0 (b :: rest) = utf8ToUtf16 3 (b % 8) 0x10000 rest := by
  have h0 : ¬ b < 0x80 := by omega
  have h1 : ¬ (0xC2 ≤ b ∧ b < 0xE0) := by omega
  have h2 : ¬ (0xE0 ≤ b ∧ b < 0xF0) := by omega
  simp [utf8ToUtf16, h, h0, h1, h2]

theorem utf8ToUtf16_last (acc lo b : Nat) (rest : List Nat) (h : 0x80 ≤ b ∧ b < 0xC0) :
    utf8ToUtf16 1 acc lo (b :: rest) =
      utf16OfCodePoint lo (acc * 64 + b % 64) ++ utf8ToUtf16 0 0 0 rest := by
  simp [utf8ToUtf16, h]

theorem utf8ToUtf16_cont (n acc lo b : Nat) (rest : List Nat) (h : 0x80 ≤ b ∧ b < 0xC0) :
    utf8ToUtf16 (n + 2) acc lo (b :: rest) = utf8ToUtf16 (n + 1) (acc * 64 + b % 64) lo rest := by
  simp [utf8ToUtf16, h]

theorem utf16OfCodePoint_bmp (lo c : Nat) (h1 : lo ≤ c) (h2 : c < 0x10000)
    (h3 : ¬ (0xD800 ≤ c ∧ c < 0xE000)) : utf16OfCodePoint lo c = [c] := by
  have a1 : ¬ c < lo := by omega
  have a2 : ¬ 0x10FFFF < c := by omega
  have a3 : isSurrogate c = false := by
    simp only [isSurrogate, Bool.and_eq_false_iff, decide_eq_false_iff_not]; omega
  simp [utf16OfCodePoint, a1, a2, a3, h2]

theorem utf16OfCodePoint_astral (c : Nat) (h1 : 0x10000 ≤ c) (h2 : c < 0x110000) :
    utf16OfCodePoint 0x10000 c =
      [0xD800 + (c - 0x10000) / 1024, 0xDC00 + (c - 0x10000) % 1024] := by
  have a1 : ¬ c < 0x10000 := by omega
  have a2 : ¬ 0x10FFFF < c := by omega
  have a3 : isSurrogate c = false := by
    simp only [isSurrogate, Bool.and_eq_false_iff, decide_eq_false_iff_not]; omega
  simp [utf16OfCodePoint, a1, a2, a3]

theorem decode_bmp (u : Nat) (rest : List Nat) (h1 : u < 0x10000)
    (h2 : isSurrogate u = false) :
    utf8ToUtf16 0 0 0 (utf8EncodeCodePoint u ++ rest) = u :: utf8ToUtf16 0 0 0 rest := by
  simp only [isSurrogate, Bool.and_eq_false_iff, decide_eq_false_iff_not] at h2
  unfold utf8EncodeCodePoint
  split_ifs with a b
  · exact utf8ToUtf16_ascii u rest a
  · simp only [List.cons_append, List.nil_append]
    rw [utf8ToUtf16_lead2 _ _ (by omega), utf8ToUtf16_last _ _ _ _ (by omega),
      utf16OfCodePoint_bmp _ _ (by omega) (by omega) (by omega)]
    simp only [List.cons_append, List.nil_append, List.cons.injEq, and_true]
    omega
  · simp only [List.cons_append, List.nil_append]
    rw [utf8ToUtf16_lead3 _ _ (by omega), utf8ToUtf16_cont 0 _ _ _ _ (by omega),
      utf8ToUtf16_last _ _ _ _ (by omega),
      utf16OfCodePoint_bmp _ _ (by omega) (by omega) (by omega)]
    simp only [List.cons_append, List.nil_append, List.cons.injEq, and_true]
    omega

theorem decode_pair (hi lo : Nat) (rest : List Nat) (h1 : isHighSurrogate hi = true)
    (h2 : isLowSurrogate lo = true) :
    utf8ToUtf16 0 0 0 (utf8EncodeCodePoint (surrogatePairToCodePoint hi lo) ++ rest) =
      hi :: lo :: utf8ToUtf16 0 0 0 rest := by
  simp only [isHighSurrogate, isLowSurrogate, Bool.and_eq_true, decide_eq_true_eq] at h1 h2
  obtain ⟨c, hc⟩ : ∃ c, c = surrogatePairToCodePoint hi lo := ⟨_, rfl⟩
  have hc1 : 0x10000 ≤ c ∧ c < 0x110000 := by
    simp only [surrogatePairToCodePoint] at hc; omega
  have hhi : 0xD800 + (c - 0x10000) / 1024 = hi := by
    simp only [surrogatePairToCodePoint] at hc; omega
  have hlo : 0xDC00 + (c - 0x10000) % 1024 = lo := by
    simp only [surrogatePairToCodePoint] at hc; omega
  rw [← hc, ← hhi, ← hlo]
  unfold utf8EncodeCodePoint
  have a1 : ¬ (c < 0x80) := by omega
  have a2 : ¬ (c < 0x800) := by omega
  have a3 : ¬ (c < 0x10000) := by omega
  rw [if_neg a1, if_neg a2, if_neg a3]
  simp only [List.cons_append, List.nil_append]
  rw [utf8ToUtf16_lead4 _ _ (by omega), utf8ToUtf16_cont 1 _ _ _ _ (by omega),
    utf8ToUtf16_cont 0 _ _ _ _ (by omega), utf8ToUtf16_last _ _ _ _ (by omega)]
  have h5 : (((240 + c / 262144) % 8 * 64 + (128 + c / 4096 % 64) % 64) * 64 +
      (128 + c / 64 % 64) % 64) * 64 + (128 + c % 64) % 64 = c := by omega
  rw [h5, utf16OfCodePoint_astral c hc1.1 hc1.2]
  rfl

theorem utf8ToUtf16_utf16ToUtf8 : ∀ (W : List Nat), WellFormedUtf16 W = true →
    utf8ToUtf16 0 0 0 (utf16ToUtf8 W) = W
  | [], _ => by simp [utf16ToUtf8, utf8ToUtf16]
  | [u], h => by
    simp only [WellFormedUtf16, Bool.and_eq_true, decide_eq_true_eq, Bool.not_eq_true'] at h
    have := decode_bmp u [] h.1 h.2
    simp only [List.append_nil] at this
    simp [utf16ToUtf8, utf8EncodeUnit, h.2, this, utf8ToUtf16]
  | u :: v :: rest, h => by
    simp only [WellFormedUtf16] at h
    split at h
    · next hu =>
      simp only [Bool.and_eq_true] at h
      simp only [utf16ToUtf8, hu, h.1, Bool.and_self, if_true]
      rw [decode_pair u v _ hu h.1, utf8ToUtf16_utf16ToUtf8 rest h.2]
    · next hu =>
      simp only [Bool.and_eq_true, decide_eq_true_eq, Bool.not_eq_true'] at h
      simp only [utf16ToUtf8, hu, Bool.false_and, utf8EncodeUnit, h.1.2]
      simp only [Bool.false_eq_true, if_false]
      rw [decode_bmp u _ h.1.1 h.1.2, utf8ToUtf16_utf16ToUtf8 (v :: rest) h.2]


theorem overwrite_replicate (xs : List Nat) :
    overwrite (List.replicate xs.length 0) xs = xs := by
  simp [overwrite]

theorem toInt32_of_lt (n : Nat) (h : n < 2147483648) : toInt32 (n : Int) = (n : Int) := by
  unfold toInt32
  omega

theorem utf8EncodeCodePoint_length (c : Nat) :
    1 ≤ (utf8EncodeCodePoint c).length ∧ (utf8EncodeCodePoint c).length ≤ 4 := by
  unfold utf8EncodeCodePoint
  split_ifs <;> simp

theorem utf8EncodeUnit_length (u : Nat) :
    1 ≤ (utf8EncodeUnit u).length ∧ (utf8EncodeUnit u).length ≤ 4 := by
  unfold utf8EncodeUnit
  split_ifs
  · simp
  · exact utf8EncodeCodePoint_length u

theorem utf8EncodeCodePoint_pair_length (hi lo : Nat) :
    (utf8EncodeCodePoint (surrogatePairToCodePoint hi lo)).length = 4 := by
  have h : 0x10000 ≤ surrogatePairToCodePoint hi lo := by
    unfold surrogatePairToCodePoint; omega
  unfold utf8EncodeCodePoint
  rw [if_neg (by omega), if_neg (by omega), if_neg (by omega)]
  rfl

/-- The UTF-8 form has at least as many bytes as the string has units, and at most four
times as many. -/
theorem utf16ToUtf8_length : ∀ (W : List Nat),
    W.length ≤ (utf16ToUtf8 W).length ∧ (utf16ToUtf8 W).length ≤ 4 * W.length
  | [] => by simp [utf16ToUtf8]
  | [u] => by
    have h := utf8EncodeUnit_length u
    simp only [utf16ToUtf8, List.length_singleton]
    omega
  | u :: v :: rest => by
    have h1 := utf8EncodeUnit_length u
    have h2 := utf8EncodeCodePoint_pair_length u v
    have ih1 := utf16ToUtf8_length rest
    have ih2 := utf16ToUtf8_length (v :: rest)
    simp only [List.length_cons] at ih2 ⊢
    simp only [utf16ToUtf8]
    split_ifs
    · rw [List.length_append, h2]; omega
    · rw [List.length_append]; omega

/-- The wrapper `WideStringToUtf8` returns the UTF-8 form of its argument and its size
when that size is an `int`. -/
theorem WideStringToUtf8_eq (W : List Nat) (hsize : (utf16ToUtf8 W).length < 2147483648) :
    WideStringToUtf8 W = (utf16ToUtf8 W, ((utf16ToUtf8 W).length : Int)) := by
  have hlen : W.length < 2147483648 := lt_of_le_of_lt (utf16ToUtf8_length W).1 hsize
  by_cases hW : W = []
  · subst hW; rfl
  · have hl : ¬ W.length = 0 := fun h => hW (List.length_eq_zero.mp h)
    have hc0 : ¬ ((W.length : Int) = 0 ∨ (0 : Int) < 0) := by omega
    have hcneg : ¬ ((W.length : Int) < 0) := by omega
    have hmax : ¬ (INT_MAX < ((utf16ToUtf8 W).length : Int)) := by
      unfold INT_MAX; omega
    by_cases h0 : (utf16ToUtf8 W).length = 0
    · have hnil : utf16ToUtf8 W = [] := List.length_eq_zero.mp h0
      simp only [WideStringToUtf8, WideCharToMultiByte, toInt32_of_lt W.length hlen, hc0,
        hcneg, if_false, Int.toNat_ofNat, List.take_length, hmax, if_true, hnil,
        List.length_nil]
      simp
    · have hpos : ((utf16ToUtf8 W).length : Int) > 0 := by omega
      have hc1 : ¬ ((W.length : Int) = 0 ∨ ((utf16ToUtf8 W).length : Int) < 0) := by omega
      have hne0 : ¬ (((utf16ToUtf8 W).length : Int) = 0) := by omega
      simp only [WideStringToUtf8, WideCharToMultiByte, toInt32_of_lt W.length hlen, hc0,
        hcneg, if_false, Int.toNat_ofNat, List.take_length, hmax, if_true, hpos, hc1, hne0,
        le_refl, overwrite_replicate]

/-- The UTF-8 branch of `ConvertStringToUTF16` returns the UTF-16 form of the buffer when
the sizes are `int` values. -/
theorem ConvertStringToUTF16_UTF8_eq (B : List Nat) (hB : B.length < 2147483648)
    (hU : (utf8ToUtf16 0 0 0 B).length < 2147483648) :
    ConvertStringToUTF16 B LM_FILETYPE.UTF8 = utf8ToUtf16 0 0 0 B := by
  by_cases hB0 : B = []
  · subst hB0; simp [ConvertStringToUTF16, utf8ToUtf16]
  · have hl : ¬ B.length = 0 := fun h => hB0 (List.length_eq_zero.mp h)
    have hc0 : ¬ ((B.length : Int) = 0 ∨ (0 : Int) < 0) := by omega
    have hcneg : ¬ ((B.length : Int) < 0) := by omega
    have hmax : ¬ (INT_MAX < ((utf8ToUtf16 0 0 0 B).length : Int)) := by
      unfold INT_MAX; omega
    by_cases h0 : (utf8ToUtf16 0 0 0 B).length = 0
    · have hnil : utf8ToUtf16 0 0 0 B = [] := List.length_eq_zero.mp h0
      simp only [ConvertStringToUTF16, MultiByteToWideChar, hl, toInt32_of_lt B.length hB,
        hc0, hcneg, if_false, Int.toNat_ofNat, List.take_length, hmax, if_true, hnil,
        List.length_nil]
      simp [overwrite]
    · have hc1 : ¬ ((B.length : Int) = 0 ∨ ((utf8ToUtf16 0 0 0 B).length : Int) < 0) := by
        omega
      have hne0 : ¬ (((utf8ToUtf16 0 0 0 B).length : Int) = 0) := by omega
      simp only [ConvertStringToUTF16, MultiByteToWideChar, hl, toInt32_of_lt B.length hB,
        hc0, hcneg, if_false, Int.toNat_ofNat, List.take_length, hmax, if_true, hc1, hne0,
        le_refl, overwrite_replicate]

theorem utf16ToUtf8_cons_of_not_high (u : Nat) (rest : List Nat)
    (h : isHighSurrogate u = false) :
    utf16ToUtf8 (u :: rest) = utf8EncodeUnit u ++ utf16ToUtf8 rest := by
  cases rest with
  | nil => simp [utf16ToUtf8]
  | cons v rest => simp [utf16ToUtf8, h]

theorem WellFormedUtf16_cons_of_bmp (u : Nat) (rest : List Nat) (h1 : u < 0x10000)
    (h2 : isSurrogate u = false) (h3 : isHighSurrogate u = false) :
    WellFormedUtf16 (u :: rest) = WellFormedUtf16 rest := by
  cases rest with
  | nil => simp [WellFormedUtf16, h1, h2]
  | cons v rest => simp [WellFormedUtf16, h1, h2, h3]

theorem utf16ToUtf8_replicate_euro_length (n : Nat) :
    (utf16ToUtf8 (List.replicate n 0x20AC)).length = 3 * n := by
  induction n with
  | zero => rfl
  | succ n ih =>
    rw [List.replicate_succ, utf16ToUtf8_cons_of_not_high _ _ (by decide),
      List.length_append, ih]
    have h : (utf8EncodeUnit 0x20AC).length = 3 := by decide
    rw [h]
    omega

theorem WellFormedUtf16_replicate_euro (n : Nat) :
    WellFormedUtf16 (List.replicate n 0x20AC) = true := by
  induction n with
  | zero => rfl
  | succ n ih =>
    rw [List.replicate_succ,
      WellFormedUtf16_cons_of_bmp _ _ (by decide) (by decide) (by decide), ih]

/-- When the UTF-8 form of a string of fewer than `2^31` units is larger than `INT_MAX`
bytes, the size query fails, `byte_size` is 0 and the returned string is empty. -/
theorem WideStringToUtf8_of_oversize (W : List Nat) (hlen : W.length < 2147483648)
    (hbig : 2147483648 ≤ (utf16ToUtf8 W).length) : WideStringToUtf8 W = ([], 0) := by
  have hpos : ¬ W.length = 0 := by
    intro h0
    have hnil : W = [] := List.length_eq_zero.mp h0
    rw [hnil] at hbig
    simp [utf16ToUtf8] at hbig
  have hc0 : ¬ ((W.length : Int) = 0 ∨ (0 : Int) < 0) := by omega
  have hcneg : ¬ ((W.length : Int) < 0) := by omega
  have hmax : INT_MAX < ((utf16ToUtf8 W).length : Int) := by
    unfold INT_MAX; omega
  have hz : ¬ ((W.length : Int) = 0) := by omega
  simp only [WideStringToUtf8, WideCharToMultiByte, toInt32_of_lt W.length hlen, hc0, hcneg,
    if_false, Int.toNat_ofNat, List.take_length, hmax, if_true]
  simp [hz]

/-- The cast of the length wraps: a string of `2^31` units has the `int` length `-2^31`,
which the conversion takes for a NUL-terminated source; when the first unit is NUL the
result is the one byte of the terminator. -/
theorem WideStringToUtf8_length_cast_wraps :
    WideStringToUtf8 (0 :: List.replicate 2147483647 0x41) = ([0], 1) := by
  have hlen : ((0 :: List.replicate 2147483647 0x41).length : Int) = 2147483648 := by
    rw [List.length_cons, List.length_replicate]
    rfl
  have hcast : toInt32 2147483648 = -2147483648 := by decide
  have hsrc : wstringOfCStr (0 :: List.replicate 2147483647 0x41) ++ [0] = [0] := by
    rw [wstringOfCStr, if_pos rfl, List.nil_append]
  have hq : ∀ cb : Int, WideCharToMultiByte (0 :: List.replicate 2147483647 0x41)
      (-2147483648) cb = if cb < 0 then (0, []) else if cb = 0 then (1, []) else (1, [0]) := by
    intro cb
    have hneg : ((-2147483648 : Int) < 0) := by decide
    have hnz : ¬ ((-2147483648 : Int) = 0) := by decide
    have hb : utf16ToUtf8 [0] = [0] := by decide
    simp only [WideCharToMultiByte, hnz, false_or, hneg, if_true, hsrc, hb,
      List.length_singleton]
    by_cases h1 : cb < 0
    · simp [h1]
    · by_cases h2 : cb = 0
      · subst h2; simp [INT_MAX]
      · have h3 : (1 : Int) ≤ cb := by omega
        simp [h1, h2, h3, INT_MAX]
  simp only [WideStringToUtf8, hlen, hcast, hq]
  decide

/-- C3, counterexample: the well-formed string of `2^30` units U+20AC has a UTF-8 form of
`3 * 2^30` bytes, more than an `int` holds; `WideStringToUtf8` gives `byte_size` 0 and the
empty string, and decoding gives the empty string, not the string. -/
theorem WideStringToUtf8_roundtrip_oversize :
    WellFormedUtf16 (List.replicate 1073741824 0x20AC) = true ∧
    WideStringToUtf8 (List.replicate 1073741824 0x20AC) = ([], 0) ∧
    ConvertStringToUTF16
      ((WideStringToUtf8 (List.replicate 1073741824 0x20AC)).1.take
        (WideStringToUtf8 (List.replicate 1073741824 0x20AC)).2.toNat)
      LM_FILETYPE.UTF8 ≠ List.replicate 1073741824 0x20AC := by
  have hw : WideStringToUtf8 (List.replicate 1073741824 0x20AC) = ([], 0) := by
    apply WideStringToUtf8_of_oversize
    · rw [List.length_replicate]; omega
    · rw [utf16ToUtf8_replicate_euro_length]; omega
  refine ⟨WellFormedUtf16_replicate_euro _, hw, ?_⟩
  rw [hw]
  have h0 : ConvertStringToUTF16
      ((([] : List Nat), (0 : Int)).1.take (([] : List Nat), (0 : Int)).2.toNat)
      LM_FILETYPE.UTF8 = [] := by decide
  rw [h0]
  intro h
  have hl := congrArg List.length h
  rw [List.length_replicate, List.length_nil] at hl
  omega

/-- C3, amended: for every well-formed UTF-16 wide string `W` whose UTF-8 form is shorter
than `2^31` bytes, `byte_size` is the size of the string `WideStringToUtf8` returns,
decoding those `byte_size` bytes with `ConvertStringToUTF16` under the declared encoding
UTF8 gives `W` back, and the empty string gives `byte_size` 0 and the empty string
back. -/
theorem WideStringToUtf8_ConvertStringToUTF16_roundtrip (W : List Nat)
    (hW : WellFormedUtf16 W = true) (hsize : (utf16ToUtf8 W).length < 2147483648) :
    (WideStringToUtf8 W).2 = ((WideStringToUtf8 W).1.length : Int) ∧
    ConvertStringToUTF16 ((WideStringToUtf8 W).1.take (WideStringToUtf8 W).2.toNat)
      LM_FILETYPE.UTF8 = W ∧
    (WideStringToUtf8 []).2 = 0 ∧
    ConvertStringToUTF16 ((WideStringToUtf8 []).1.take (WideStringToUtf8 []).2.toNat)
      LM_FILETYPE.UTF8 = [] := by
  have hlen : W.length < 2147483648 := lt_of_le_of_lt (utf16ToUtf8_length W).1 hsize
  refine ⟨?_, ?_, by decide, by decide⟩
  · rw [WideStringToUtf8_eq W hsize]
  · rw [WideStringToUtf8_eq W hsize]
    simp only [Int.toNat_ofNat, List.take_length]
    rw [ConvertStringToUTF16_UTF8_eq _ hsize
      (by rw [utf8ToUtf16_utf16ToUtf8 W hW]; exact hlen), utf8ToUtf16_utf16ToUtf8 W hW]

theorem WideStringToUtf8_ConvertStringToUTF16_roundtrip_witness :
    ConvertStringToUTF16
      ((WideStringToUtf8 [0x41, 0xE9, 0x20AC, 0xD83D, 0xDE00, 0xFEFF, 0]).1.take
        (WideStringToUtf8 [0x41, 0xE9, 0x20AC, 0xD83D, 0xDE00, 0xFEFF, 0]).2.toNat)
      LM_FILETYPE.UTF8 = [0x41, 0xE9, 0x20AC, 0xD83D, 0xDE00, 0xFEFF, 0] :=
  (WideStringToUtf8_ConvertStringToUTF16_roundtrip
    [0x41, 0xE9, 0x20AC, 0xD83D, 0xDE00, 0xFEFF, 0] (by decide) (by decide)).2.1

/-! ## Console sink: line terminator -/

theorem find_last_of_from_append (ch x : Nat) : ∀ (s : List Nat) (i best : Nat),
    find_last_of_from ch (s ++ [x]) i best =
      if x = ch then i + s.length else find_last_of_from ch s i best
  | [], i, best => by simp [find_last_of_from]
  | u :: rest, i, best => by
    show find_last_of_from ch (u :: (rest ++ [x])) i best = _
    rw [find_last_of_from, find_last_of_from_append ch x rest, List.length_cons]
    by_cases hx : x = ch
    · simp only [hx, if_true]; omega
    · simp only [hx, if_false, find_last_of_from]

theorem find_last_of_from_range (ch : Nat) : ∀ (s : List Nat) (i best : Nat),
    find_last_of_from ch s i best = best ∨
      (i ≤ find_last_of_from ch s i best ∧ find_last_of_from ch s i best < i + s.length)
  | [], _, _ => Or.inl rfl
  | u :: rest, i, best => by
    simp only [find_last_of_from, List.length_cons]
    rcases find_last_of_from_range ch rest (i + 1) (if u = ch then i else best) with h | h
    · rw [h]
      split_ifs
      · right; omega
      · left; rfl
    · right; omega

theorem wstringOfCStr_eq_self : ∀ (M : List Nat), 0 ∉ M → wstringOfCStr M = M
  | [], _ => rfl
  | u :: rest, h => by
    have hu : ¬ u = 0 := fun e => h (by simp [e])
    have hr : 0 ∉ rest := fun e => h (List.mem_cons_of_mem _ e)
    simp only [wstringOfCStr, if_neg hu, wstringOfCStr_eq_self rest hr]

/-- On a message that is not empty and holds no NUL unit, `WriteConsoleLog` encodes the
message itself when it ends in a line feed and the message followed by one line feed
otherwise. -/
theorem WriteConsoleLog_text_of_ne_nil (M : List Nat) (hne : M ≠ []) (hnul : 0 ∉ M)
    (hlen : M.length < SIZE_T_RANGE) :
    WriteConsoleLog_text M = if M.getLast? = some 10 then M else M ++ [10] := by
  obtain ⟨s, x, rfl⟩ : ∃ s x, M = s ++ [x] := by
    rcases List.eq_nil_or_concat M with h | ⟨s, x, h⟩
    · exact absurd h hne
    · exact ⟨s, x, by simpa using h⟩
  have hsz : ((s ++ [x]).length + SIZE_T_RANGE - 1) % SIZE_T_RANGE = s.length := by
    simp only [List.length_append, List.length_singleton] at hlen ⊢
    simp only [SIZE_T_RANGE] at hlen ⊢
    omega
  have hlast : (s ++ [x]).getLast? = some x := by simp
  simp only [WriteConsoleLog_text, WriteConsoleLog_FormattedString, find_last_of,
    find_last_of_from_append, hsz, hlast, Option.some.injEq, Nat.zero_add]
  by_cases hx : x = 10
  · simp only [hx, if_true, bne_self_eq_false, Bool.false_eq_true, if_false]
    exact wstringOfCStr_eq_self _ (by simpa [hx] using hnul)
  · have hfind : find_last_of_from 10 s 0 npos ≠ s.length := by
      rcases find_last_of_from_range 10 s 0 npos with h | h
      · rw [h]
        simp only [List.length_append, List.length_singleton, SIZE_T_RANGE] at hlen
        simp only [npos, SIZE_T_RANGE]
        omega
      · omega
    have hb : (find_last_of_from 10 s 0 npos != s.length) = true := bne_iff_ne.mpr hfind
    simp only [hx, if_false, hb, if_true]
    exact wstringOfCStr_eq_self _ (by simpa using hnul)

/-- C1, at the failing input: for the empty message the comparison of `npos` with
`size() - 1` holds, no line feed is appended, the text handed to the encoder is empty
and the one write `WriteConsoleLog` performs carries zero bytes. -/
theorem WriteConsoleLog_empty_message :
    find_last_of [] 10 = (([] : List Nat).length + SIZE_T_RANGE - 1) % SIZE_T_RANGE ∧
    WriteConsoleLog_text [] = [] ∧
    WriteConsoleLog [] [] = [[]] ∧
    WriteConsoleLog_text (L "a") = L "a\n" ∧
    WriteConsoleLog_text (L "a\n") = L "a\n" := by
  decide

/-- A message with an embedded NUL unit is cut at the NUL by the `c_str()` conversion
after the line feed was appended. -/
theorem WriteConsoleLog_text_embedded_nul :
    WriteConsoleLog_text [0x61, 0, 0x62] = [0x61] := by
  decide

/-! ## Console sink: the bytes of a trace line -/

theorem not_mem_wstringOfCStr : ∀ (xs : List Nat), 0 ∉ wstringOfCStr xs
  | [] => by simp [wstringOfCStr]
  | u :: rest => by
    by_cases hu : u = 0
    · simp [wstringOfCStr, hu]
    · have ih := not_mem_wstringOfCStr rest
      simp only [wstringOfCStr, if_neg hu, List.mem_cons, not_or]
      exact ⟨fun h => hu h.symm, ih⟩

theorem wstringOfCStr_length_le : ∀ (xs : List Nat), (wstringOfCStr xs).length ≤ xs.length
  | [] => by simp [wstringOfCStr]
  | u :: rest => by
    have ih := wstringOfCStr_length_le rest
    by_cases hu : u = 0
    · simp [wstringOfCStr, hu]
    · simp only [wstringOfCStr, if_neg hu, List.length_cons]
      omega

theorem bufferString_length_le (written : List Nat) : (bufferString written).length ≤ 63 := by
  have h := wstringOfCStr_length_le (written.take (STR_LEN - 1))
  have h2 : (written.take (STR_LEN - 1)).length ≤ 63 := by
    rw [List.length_take]
    exact Nat.min_le_left _ _
  unfold bufferString
  omega

/-- The time string holds no NUL unit and at most 132 units. -/
theorem SystemTimeToString_facts (dateStr timeStr : List Nat) :
    0 ∉ SystemTimeToString dateStr timeStr ∧
    (SystemTimeToString dateStr timeStr).length ≤ 132 := by
  have hd := bufferString_length_le dateStr
  have ht := bufferString_length_le timeStr
  have h1 : (L "T").length = 1 := by decide
  have h2 : (L ".000Z").length = 5 := by decide
  have z1 : 0 ∉ L "T" := by decide
  have z2 : 0 ∉ L ".000Z" := by decide
  constructor
  · simp only [SystemTimeToString, List.mem_append, not_or]
    exact ⟨⟨⟨not_mem_wstringOfCStr _, z1⟩, not_mem_wstringOfCStr _⟩, z2⟩
  · simp only [SystemTimeToString, List.length_append, h1, h2]
    omega

theorem TraceLevel_tag_facts (level : TraceLevel) :
    0 ∉ L level.tag ∧ (L level.tag).length ≤ 7 := by
  cases level <;> decide

theorem toDWORD_of_lt (n : Nat) (h : n < 4294967296) : toDWORD (n : Int) = n := by
  unfold toDWORD
  omega

/-- The write of `WriteConsoleLog` for a message that is not empty, holds no NUL unit,
does not end in a line feed and has fewer than `2^20` units: the UTF-8 form of the
message followed by one line feed. -/
theorem WriteConsoleLog_ref_eq (M : List Nat) (stdout : List (List Nat)) (hne : M ≠ [])
    (hnul : 0 ∉ M) (hlast : M.getLast? ≠ some 10) (hlen : M.length < 1048576) :
    WriteConsoleLog_ref M stdout = stdout ++ [utf16ToUtf8 (M ++ [10])] := by
  have htext : WriteConsoleLog_text M = M ++ [10] := by
    rw [WriteConsoleLog_text_of_ne_nil M hne hnul (by unfold SIZE_T_RANGE; omega), if_neg hlast]
  have hb := (utf16ToUtf8_length (M ++ [10])).2
  have hsize : (utf16ToUtf8 (M ++ [10])).length < 2147483648 := by
    simp only [List.length_append, List.length_singleton] at hb
    omega
  unfold WriteConsoleLog_ref WriteConsoleLog
  rw [wstringOfCStr_eq_self M hnul, htext, WideStringToUtf8_eq _ hsize]
  simp only [toDWORD_of_lt _ (lt_trans hsize (by omega)), List.take_length]

/-- The write of a trace helper for a message that is not empty, holds no NUL unit, does
not end in a line feed and has fewer than `2^19` units: one buffer, the UTF-8 form of the
bracketed time, the component tag, the level, the message and one line feed. -/
theorem Trace_stdout {P M : Type} (env : Env P M) (level : TraceLevel) (Message : List Nat)
    (s : ProcessState P M) (hne : Message ≠ []) (hnul : 0 ∉ Message)
    (hlast : Message.getLast? ≠ some 10) (hlen : Message.length < 524288) :
    (Trace env level Message s).stdout = s.stdout ++
      [utf16ToUtf8 (L "[" ++ timeAt env s.stdout.length ++ L "][LOGMONITOR] " ++
        L level.tag ++ L ": " ++ Message ++ [10])] := by
  obtain ⟨tz, tl⟩ : 0 ∉ timeAt env s.stdout.length ∧
      (timeAt env s.stdout.length).length ≤ 132 :=
    SystemTimeToString_facts (env.GetDateFormatEx s.stdout.length)
      (env.GetTimeFormatEx s.stdout.length)
  obtain ⟨gz, gl⟩ := TraceLevel_tag_facts level
  have h1 : (L "[").length = 1 := by decide
  have h2 : (L "][LOGMONITOR] ").length = 14 := by decide
  have h3 : (L ": ").length = 2 := by decide
  have z1 : 0 ∉ L "[" := by decide
  have z2 : 0 ∉ L "][LOGMONITOR] " := by decide
  have z3 : 0 ∉ L ": " := by decide
  have hmsg : traceMessage level (timeAt env s.stdout.length) Message =
      L "[" ++ timeAt env s.stdout.length ++ L "][LOGMONITOR] " ++ L level.tag ++ L ": " ++
        Message := by
    unfold traceMessage
    rw [wstringOfCStr_eq_self _ hnul, wstringOfCStr_eq_self _ tz]
  show WriteConsoleLog_ref (traceMessage level (timeAt env s.stdout.length) Message) s.stdout
    = _
  rw [hmsg]
  apply WriteConsoleLog_ref_eq
  · intro h
    have := congrArg List.length h
    simp only [List.length_append, h1, List.length_nil] at this
    omega
  · simp only [List.mem_append, not_or]
    exact ⟨⟨⟨⟨⟨z1, tz⟩, z2⟩, gz⟩, z3⟩, hnul⟩
  · rw [List.getLast?_append_of_ne_nil _ hne]
    exact hlast
  · simp only [List.length_append, h1, h2, h3]
    omega

/-! ## Dispatcher -/

section DispatcherFacts

variable {P M : Type}

theorem Trace_traces (env : Env P M) (level : TraceLevel) (Message : List Nat)
    (s : ProcessState P M) :
    (Trace env level Message s).traces = s.traces ++ [(level, Message)] := rfl

theorem Trace_g_etwMon (env : Env P M) (level : TraceLevel) (Message : List Nat)
    (s : ProcessState P M) : (Trace env level Message s).g_etwMon = s.g_etwMon := rfl

theorem Trace_etwConstructions (env : Env P M) (level : TraceLevel) (Message : List Nat)
    (s : ProcessState P M) :
    (Trace env level Message s).etwConstructions = s.etwConstructions := rfl

/-- Every trace helper call performs exactly one write. -/
theorem Trace_stdout_length (env : Env P M) (level : TraceLevel) (Message : List Nat)
    (s : ProcessState P M) :
    (Trace env level Message s).stdout.length = s.stdout.length + 1 := by
  simp [Trace, WriteConsoleLog_ref, WriteConsoleLog]

theorem InitializeEtwMonitor_eq (sourceETW : LogSource P) (etwProviders : List P) :
    InitializeEtwMonitor sourceETW etwProviders = etwProviders ++ sourceETW.Providers := by
  unfold InitializeEtwMonitor
  generalize sourceETW.Providers = ps
  induction ps generalizing etwProviders with
  | nil => simp
  | cons p rest ih => simp [List.foldl_cons, ih]

theorem flattenProviders_cons_etw (src : LogSource P) (rest : List (LogSource P))
    (h : src.Type_ = LogSourceType.ETW) :
    flattenProviders (src :: rest) = src.Providers ++ flattenProviders rest := by
  simp [flattenProviders, h]

theorem flattenProviders_cons_other (src : LogSource P) (rest : List (LogSource P))
    (h : src.Type_ ≠ LogSourceType.ETW) :
    flattenProviders (src :: rest) = flattenProviders rest := by
  simp [flattenProviders, h]

theorem unsupportedCount_cons_etw (src : LogSource P) (rest : List (LogSource P))
    (h : src.Type_ = LogSourceType.ETW) :
    unsupportedCount (src :: rest) = unsupportedCount rest := by
  simp [unsupportedCount, h]

theorem unsupportedCount_cons_other (src : LogSource P) (rest : List (LogSource P))
    (h : src.Type_ ≠ LogSourceType.ETW) :
    unsupportedCount (src :: rest) = unsupportedCount rest + 1 := by
  simp [unsupportedCount, h]

/-- The source loop: the provider vector grows by the providers of the ETW sources in
order, every other source adds one warning line, nothing else changes. -/
theorem StartMonitors_loop_spec (env : Env P M) : ∀ (sources : List (LogSource P))
    (etwProviders : List P) (s : ProcessState P M),
    (StartMonitors_loop env sources etwProviders s).1 =
        etwProviders ++ flattenProviders sources ∧
    (StartMonitors_loop env sources etwProviders s).2.g_etwMon = s.g_etwMon ∧
    (StartMonitors_loop env sources etwProviders s).2.etwConstructions =
        s.etwConstructions ∧
    (StartMonitors_loop env sources etwProviders s).2.traces =
        s.traces ++ List.replicate (unsupportedCount sources)
          (TraceLevel.Warning, unsupportedSourceMessage) ∧
    (StartMonitors_loop env sources etwProviders s).2.stdout.length =
        s.stdout.length + unsupportedCount sources
  | [], etwProviders, s => by
    simp [StartMonitors_loop, flattenProviders, unsupportedCount]
  | source :: rest, etwProviders, s => by
    by_cases h : source.Type_ = LogSourceType.ETW
    · have ih := StartMonitors_loop_spec env rest (InitializeEtwMonitor source etwProviders) s
      have hstep : StartMonitors_loop env (source :: rest) etwProviders s =
          StartMonitors_loop env rest (InitializeEtwMonitor source etwProviders) s := by
        simp only [StartMonitors_loop, h]
      rw [hstep, flattenProviders_cons_etw source rest h, unsupportedCount_cons_etw source rest h]
      rw [InitializeEtwMonitor_eq] at ih ⊢
      simpa [List.append_assoc] using ih
    · have ih := StartMonitors_loop_spec env rest etwProviders
        (Trace env TraceLevel.Warning unsupportedSourceMessage s)
      have hstep : StartMonitors_loop env (source :: rest) etwProviders s =
          StartMonitors_loop env rest etwProviders
            (Trace env TraceLevel.Warning unsupportedSourceMessage s) := by
        cases hT : source.Type_ <;> simp_all [StartMonitors_loop]
      rw [hstep, flattenProviders_cons_other source rest h,
        unsupportedCount_cons_other source rest h]
      obtain ⟨h1, h2, h3, h4, h5⟩ := ih
      refine ⟨h1, ?_, ?_, ?_, ?_⟩
      · rw [h2, Trace_g_etwMon]
      · rw [h3, Trace_etwConstructions]
      · rw [h4, Trace_traces, List.append_assoc, List.replicate_succ]
        rfl
      · rw [h5, Trace_stdout_length]; omega

/-- One construction attempt: it is recorded, it never throws past `CreateEtwMonitor`,
the monitor pointer changes only on success and a failure adds one error line. -/
theorem CreateEtwMonitor_spec (env : Env P M) (etwProviders : List P)
    (s : ProcessState P M) :
    ∃ s1, CreateEtwMonitor env etwProviders s = Except.ok s1 ∧
      s1.etwConstructions = s.etwConstructions ++ [etwProviders] ∧
      s1.g_etwMon = constructionResult env etwProviders s.g_etwMon ∧
      s1.traces = s.traces ++ constructionTraces env etwProviders ∧
      s1.stdout.length = s.stdout.length + (constructionTraces env etwProviders).length := by
  unfold CreateEtwMonitor constructionResult constructionTraces
  cases h : env.newEtwMonitor etwProviders with
  | ok mon => exact ⟨_, rfl, rfl, rfl, by simp, by simp⟩
  | error e =>
    exact ⟨_, rfl, rfl, rfl, by simp [Trace_traces], by simp [Trace_stdout_length]⟩

/-- The whole of `StartMonitors` in terms of the flattened provider list and the number
of unsupported sources. -/
theorem StartMonitors_spec (env : Env P M) (settings : LoggerSettings P)
    (s : ProcessState P M) :
    ∃ s1, StartMonitors env settings s = Except.ok s1 ∧
      s1.etwConstructions = s.etwConstructions ++
        (if (flattenProviders settings.Sources).isEmpty then []
         else [flattenProviders settings.Sources]) ∧
      s1.g_etwMon =
        (if (flattenProviders settings.Sources).isEmpty then s.g_etwMon
         else constructionResult env (flattenProviders settings.Sources) s.g_etwMon) ∧
      s1.traces = s.traces ++
        List.replicate (unsupportedCount settings.Sources)
          (TraceLevel.Warning, unsupportedSourceMessage) ++
        (if (flattenProviders settings.Sources).isEmpty then []
         else constructionTraces env (flattenProviders settings.Sources)) := by
  obtain ⟨h1, h2, h3, h4, _⟩ := StartMonitors_loop_spec env settings.Sources [] s
  rw [List.nil_append] at h1
  unfold StartMonitors
  simp only [h1]
  cases hE : (flattenProviders settings.Sources).isEmpty with
  | true =>
    refine ⟨(StartMonitors_loop env settings.Sources [] s).2, by simp, ?_, ?_, ?_⟩
    · simp [h3]
    · simp [h2]
    · simp [h4]
  | false =>
    obtain ⟨s1, e1, e2, e3, e4, _⟩ := CreateEtwMonitor_spec env
      (flattenProviders settings.Sources) (StartMonitors_loop env settings.Sources [] s).2
    refine ⟨s1, by simpa using e1, ?_, ?_, ?_⟩
    · simp [e2, h3]
    · simp [e3, h2]
    · simp [e4, h4]

theorem flattenProviders_supportedSources (sources : List (LogSource P)) :
    flattenProviders (supportedSources sources) = flattenProviders sources := by
  simp [flattenProviders, supportedSources, List.filter_filter]

theorem unsupportedCount_supportedSources (sources : List (LogSource P)) :
    unsupportedCount (supportedSources sources) = 0 := by
  simp [unsupportedCount, supportedSources, List.filter_filter]

theorem flattenProviders_eq_nil_of_no_etw (sources : List (LogSource P))
    (h : ∀ src ∈ sources, src.Type_ ≠ LogSourceType.ETW) : flattenProviders sources = [] := by
  have hf : sources.filter (fun src => decide (src.Type_ = LogSourceType.ETW)) = [] := by
    rw [List.filter_eq_nil_iff]
    intro src hsrc
    simpa using h src hsrc
  simp [flattenProviders, hf]

theorem filter_level_replicate_same (level : TraceLevel) (Message : List Nat) (k : Nat) :
    (List.replicate k (level, Message)).filter (fun t => decide (t.1 = level)) =
      List.replicate k (level, Message) := by
  induction k with
  | zero => rfl
  | succ k ih => simp [List.replicate_succ, ih]

theorem filter_level_replicate_other (level other : TraceLevel) (Message : List Nat)
    (k : Nat) (h : other ≠ level) :
    (List.replicate k (other, Message)).filter (fun t => decide (t.1 = level)) = [] := by
  induction k with
  | zero => rfl
  | succ k ih => simp [List.replicate_succ, ih, h]

theorem filter_warning_constructionTraces (env : Env P M) (etwProviders : List P) :
    (constructionTraces env etwProviders).filter
      (fun t => decide (t.1 = TraceLevel.Warning)) = [] := by
  unfold constructionTraces
  cases env.newEtwMonitor etwProviders <;> simp

/-- The write of `TraceWarning` for an unsupported source. -/
theorem Trace_unsupportedSource_stdout (env : Env P M) (s : ProcessState P M) :
    (Trace env TraceLevel.Warning unsupportedSourceMessage s).stdout =
      s.stdout ++ [unsupportedSourceLine (timeAt env s.stdout.length)] := by
  rw [Trace_stdout env TraceLevel.Warning unsupportedSourceMessage s (by decide) (by decide)
    (by decide) (by decide)]
  have htail : L "][LOGMONITOR] " ++ (L TraceLevel.Warning.tag ++
      (L ": " ++ (unsupportedSourceMessage ++ [10]))) =
      L "][LOGMONITOR] WARNING: Log source type not supported for monitoring\n" := by
    decide
  simp only [unsupportedSourceLine, List.append_assoc, htail]

/-- The write of `TraceError` for a failed construction. -/
theorem Trace_invalidProviders_stdout (env : Env P M) (s : ProcessState P M) :
    (Trace env TraceLevel.Error invalidProvidersMessage s).stdout =
      s.stdout ++ [invalidProvidersLine (timeAt env s.stdout.length)] := by
  rw [Trace_stdout env TraceLevel.Error invalidProvidersMessage s (by decide) (by decide)
    (by decide) (by decide)]
  have htail : L "][LOGMONITOR] " ++ (L TraceLevel.Error.tag ++
      (L ": " ++ (invalidProvidersMessage ++ [10]))) =
      L "][LOGMONITOR] ERROR: Invalid providers. Check them using 'logman query providers'\n" := by
    decide
  simp only [invalidProvidersLine, List.append_assoc, htail]

/-- The source loop writes the warning line of every unsupported source, in order, and
nothing else. -/
theorem StartMonitors_loop_stdout (env : Env P M) : ∀ (sources : List (LogSource P))
    (etwProviders : List P) (s : ProcessState P M),
    (StartMonitors_loop env sources etwProviders s).2.stdout =
      s.stdout ++ unsupportedSourceLines env s.stdout.length (unsupportedCount sources)
  | [], etwProviders, s => by
    simp [StartMonitors_loop, unsupportedCount, unsupportedSourceLines]
  | source :: rest, etwProviders, s => by
    by_cases h : source.Type_ = LogSourceType.ETW
    · have hstep : StartMonitors_loop env (source :: rest) etwProviders s =
          StartMonitors_loop env rest (InitializeEtwMonitor source etwProviders) s := by
        simp only [StartMonitors_loop, h]
      rw [hstep, unsupportedCount_cons_etw source rest h]
      exact StartMonitors_loop_stdout env rest _ s
    · have hstep : StartMonitors_loop env (source :: rest) etwProviders s =
          StartMonitors_loop env rest etwProviders
            (Trace env TraceLevel.Warning unsupportedSourceMessage s) := by
        cases hT : source.Type_ <;> simp_all [StartMonitors_loop]
      rw [hstep, unsupportedCount_cons_other source rest h,
        StartMonitors_loop_stdout env rest etwProviders
          (Trace env TraceLevel.Warning unsupportedSourceMessage s),
        Trace_unsupportedSource_stdout]
      simp only [List.length_append, List.length_singleton, unsupportedSourceLines,
        List.append_assoc, List.singleton_append]

/-- One construction attempt writes the error line when the constructor throws and
nothing otherwise. -/
theorem CreateEtwMonitor_stdout (env : Env P M) (etwProviders : List P)
    (s s1 : ProcessState P M) (h : CreateEtwMonitor env etwProviders s = Except.ok s1) :
    s1.stdout = s.stdout ++ constructionLines env etwProviders s.stdout.length := by
  unfold CreateEtwMonitor at h
  unfold constructionLines
  cases hnew : env.newEtwMonitor etwProviders with
  | ok mon =>
    simp only [hnew] at h
    have hs := Except.ok.inj h
    subst hs
    simp
  | error e =>
    simp only [hnew] at h
    have hs := Except.ok.inj h
    subst hs
    exact Trace_invalidProviders_stdout env _

/-- The writes of `StartMonitors`: the warning lines of the unsupported sources, then the
error line when a construction was attempted and failed. -/
theorem StartMonitors_stdout (env : Env P M) (settings : LoggerSettings P)
    (s s1 : ProcessState P M) (h : StartMonitors env settings s = Except.ok s1) :
    s1.stdout = s.stdout ++
      unsupportedSourceLines env s.stdout.length (unsupportedCount settings.Sources) ++
      (if (flattenProviders settings.Sources).isEmpty then []
       else constructionLines env (flattenProviders settings.Sources)
         (s.stdout.length + unsupportedCount settings.Sources)) := by
  obtain ⟨h1, _, _, _, h5⟩ := StartMonitors_loop_spec env settings.Sources [] s
  have h6 := StartMonitors_loop_stdout env settings.Sources [] s
  rw [List.nil_append] at h1
  unfold StartMonitors at h
  simp only [h1] at h
  cases hE : (flattenProviders settings.Sources).isEmpty with
  | true =>
    simp only [hE, Bool.not_true, Bool.false_eq_true, if_false] at h
    have hs := Except.ok.inj h
    subst hs
    simp [h6]
  | false =>
    simp only [hE, Bool.not_false, if_true] at h
    have h7 := CreateEtwMonitor_stdout env _ _ s1 h
    rw [h5, h6] at h7
    rw [h7]
    simp

/-- C7, counterexample: a configuration of one ETW source that lists no provider holds
an ETW source, yet `StartMonitors` attempts no construction. -/
theorem StartMonitors_etw_source_without_providers :
    (∃ src ∈ [({ Type_ := LogSourceType.ETW, Providers := [] } : LogSource Nat)],
      src.Type_ = LogSourceType.ETW) ∧
    ∃ s1, StartMonitors acceptingEnv
        { Sources := [{ Type_ := LogSourceType.ETW, Providers := [] }] }
        ProcessState.initial = Except.ok s1 ∧
      s1.etwConstructions = [] ∧ s1.etwConstructions.length ≠ 1 :=
  ⟨⟨_, List.mem_singleton.mpr rfl, rfl⟩, _, rfl, rfl, by decide⟩

/-- C7, amended: when the ETW sources together list at least one provider,
`StartMonitors` attempts exactly one construction, on the concatenation in configuration
order of the provider lists of all ETW sources; when they list none, and so when there
is no ETW source, it attempts no construction. -/
theorem StartMonitors_one_construction (env : Env P M) (settings : LoggerSettings P)
    (s : ProcessState P M) :
    ∃ s1, StartMonitors env settings s = Except.ok s1 ∧
      (flattenProviders settings.Sources ≠ [] →
        s1.etwConstructions = s.etwConstructions ++ [flattenProviders settings.Sources]) ∧
      (flattenProviders settings.Sources = [] → s1.etwConstructions = s.etwConstructions) ∧
      ((∀ src ∈ settings.Sources, src.Type_ ≠ LogSourceType.ETW) →
        s1.etwConstructions = s.etwConstructions) := by
  obtain ⟨s1, h, hc, _, _⟩ := StartMonitors_spec env settings s
  have hnil : flattenProviders settings.Sources = [] →
      s1.etwConstructions = s.etwConstructions := by
    intro h0
    simpa [h0] using hc
  refine ⟨s1, h, ?_, hnil, ?_⟩
  · intro hne
    have hE : (flattenProviders settings.Sources).isEmpty = false := by
      cases hfl : flattenProviders settings.Sources with
      | nil => exact absurd hfl hne
      | cons p ps => rfl
    simpa [hE] using hc
  · intro hno
    exact hnil (flattenProviders_eq_nil_of_no_etw settings.Sources hno)

theorem StartMonitors_one_construction_witness :
    ∃ s1, StartMonitors acceptingEnv
        { Sources := [{ Type_ := LogSourceType.ETW, Providers := [1, 2] },
                      { Type_ := LogSourceType.File, Providers := [] },
                      { Type_ := LogSourceType.ETW, Providers := [3] }] }
        ProcessState.initial = Except.ok s1 ∧
      s1.etwConstructions = [[1, 2, 3]] := by
  obtain ⟨s1, h, h1, _, _⟩ := StartMonitors_one_construction acceptingEnv
    { Sources := [{ Type_ := LogSourceType.ETW, Providers := [1, 2] },
                  { Type_ := LogSourceType.File, Providers := [] },
                  { Type_ := LogSourceType.ETW, Providers := [3] }] }
    ProcessState.initial
  exact ⟨s1, h, h1 (by decide)⟩

/-- C8: `StartMonitors` logs one warning line per source whose kind is not event tracing
and no other warning line: the output grows by exactly those lines, each the UTF-8 form
of the time, the tag, WARNING and the message with one line feed, followed only by the
error line of a failed construction; the provider collection, the construction attempts
and the resulting monitor are those of the list with the unsupported sources removed; no
error line is logged when no construction fails; and one ETW source with two providers
plus one unsupported source starts one monitor, writes one warning line and no error. -/
theorem StartMonitors_unsupported_sources (env : Env P M) (settings : LoggerSettings P)
    (s : ProcessState P M) :
    ∃ s1 s2, StartMonitors env settings s = Except.ok s1 ∧
      StartMonitors env { Sources := supportedSources settings.Sources } s = Except.ok s2 ∧
      s1.traces.filter (fun t => decide (t.1 = TraceLevel.Warning)) =
        s.traces.filter (fun t => decide (t.1 = TraceLevel.Warning)) ++
          List.replicate (unsupportedCount settings.Sources)
            (TraceLevel.Warning, unsupportedSourceMessage) ∧
      traceCount TraceLevel.Warning s1 =
        traceCount TraceLevel.Warning s + unsupportedCount settings.Sources ∧
      flattenProviders (supportedSources settings.Sources) =
        flattenProviders settings.Sources ∧
      s1.etwConstructions = s2.etwConstructions ∧
      s1.g_etwMon = s2.g_etwMon ∧
      s1.stdout = s.stdout ++
        unsupportedSourceLines env s.stdout.length (unsupportedCount settings.Sources) ++
        (if (flattenProviders settings.Sources).isEmpty then []
         else constructionLines env (flattenProviders settings.Sources)
           (s.stdout.length + unsupportedCount settings.Sources)) ∧
      ((flattenProviders settings.Sources = [] ∨
          ∃ mon, env.newEtwMonitor (flattenProviders settings.Sources) = Except.ok mon) →
        traceCount TraceLevel.Error s1 = traceCount TraceLevel.Error s ∧
        s1.stdout = s.stdout ++
          unsupportedSourceLines env s.stdout.length (unsupportedCount settings.Sources)) ∧
      (∀ (p1 p2 : P) (mon : M) (kind : LogSourceType) (ps : List P),
        kind ≠ LogSourceType.ETW → env.newEtwMonitor [p1, p2] = Except.ok mon →
        ∃ s3, StartMonitors env
            { Sources := [{ Type_ := LogSourceType.ETW, Providers := [p1, p2] },
                          { Type_ := kind, Providers := ps }] }
            ProcessState.initial = Except.ok s3 ∧
          s3.g_etwMon = some mon ∧ s3.etwConstructions = [[p1, p2]] ∧
          traceCount TraceLevel.Warning s3 = 1 ∧ traceCount TraceLevel.Error s3 = 0 ∧
          s3.stdout = [unsupportedSourceLine (timeAt env 0)]) := by
  obtain ⟨s1, h1, c1, g1, t1⟩ := StartMonitors_spec env settings s
  obtain ⟨s2, h2, c2, g2, _⟩ :=
    StartMonitors_spec env { Sources := supportedSources settings.Sources } s
  have o1 := StartMonitors_stdout env settings s s1 h1
  simp only [flattenProviders_supportedSources] at c2 g2
  have hwarn : s1.traces.filter (fun t => decide (t.1 = TraceLevel.Warning)) =
      s.traces.filter (fun t => decide (t.1 = TraceLevel.Warning)) ++
        List.replicate (unsupportedCount settings.Sources)
          (TraceLevel.Warning, unsupportedSourceMessage) := by
    rw [t1, List.filter_append, List.filter_append, filter_level_replicate_same]
    split_ifs
    · simp
    · simp [filter_warning_constructionTraces]
  refine ⟨s1, s2, h1, h2, hwarn, ?_, flattenProviders_supportedSources _, ?_, ?_, o1, ?_, ?_⟩
  · simp [traceCount, hwarn]
  · rw [c1, c2]
  · rw [g1, g2]
  · intro hok
    have herr : (if (flattenProviders settings.Sources).isEmpty then []
        else constructionTraces env (flattenProviders settings.Sources)) = [] := by
      rcases hok with h0 | ⟨mon, hmon⟩
      · simp [h0]
      · simp [constructionTraces, hmon]
    have hlines : (if (flattenProviders settings.Sources).isEmpty then []
        else constructionLines env (flattenProviders settings.Sources)
          (s.stdout.length + unsupportedCount settings.Sources)) = [] := by
      rcases hok with h0 | ⟨mon, hmon⟩
      · simp [h0]
      · simp [constructionLines, hmon]
    rw [herr, List.append_nil] at t1
    rw [hlines, List.append_nil] at o1
    have hne : TraceLevel.Warning ≠ TraceLevel.Error := by decide
    refine ⟨?_, o1⟩
    simp only [traceCount, t1, List.filter_append,
      filter_level_replicate_other TraceLevel.Error TraceLevel.Warning _ _ hne,
      List.append_nil]
  · intro p1 p2 mon kind ps hkind hmon
    obtain ⟨s3, h3, c3, g3, t3⟩ := StartMonitors_spec env
      { Sources := [{ Type_ := LogSourceType.ETW, Providers := [p1, p2] },
                    { Type_ := kind, Providers := ps }] } ProcessState.initial
    have o3 := StartMonitors_stdout env _ _ s3 h3
    have hf : flattenProviders
        [({ Type_ := LogSourceType.ETW, Providers := [p1, p2] } : LogSource P),
          { Type_ := kind, Providers := ps }] = [p1, p2] := by
      simp [flattenProviders, hkind]
    have hu : unsupportedCount
        [({ Type_ := LogSourceType.ETW, Providers := [p1, p2] } : LogSource P),
          { Type_ := kind, Providers := ps }] = 1 := by
      simp [unsupportedCount, hkind]
    simp only [hf, hu] at c3 g3 t3 o3
    refine ⟨s3, h3, ?_, ?_, ?_, ?_, ?_⟩
    · simpa [constructionResult, hmon] using g3
    · simpa [ProcessState.initial] using c3
    · simp [traceCount, t3, constructionTraces, hmon, ProcessState.initial]
    · simp [traceCount, t3, constructionTraces, hmon, ProcessState.initial]
    · simpa [constructionLines, hmon, ProcessState.initial, unsupportedSourceLines] using o3

theorem StartMonitors_unsupported_sources_witness :
    ∃ s1, StartMonitors acceptingEnv
        { Sources := [{ Type_ := LogSourceType.ETW, Providers := [1, 2] },
                      { Type_ := LogSourceType.File, Providers := [] }] }
        ProcessState.initial = Except.ok s1 ∧
      s1.g_etwMon = some 2 ∧ s1.etwConstructions = [[1, 2]] ∧
      traceCount TraceLevel.Warning s1 = 1 ∧ traceCount TraceLevel.Error s1 = 0 ∧
      s1.stdout = [L ("[2024-01-01T00:00:00.000Z][LOGMONITOR] WARNING: " ++
        "Log source type not supported for monitoring\n")] := by
  obtain ⟨s1, _, h1, _, _, hw, _, _, _, _, herr, hex⟩ :=
    StartMonitors_unsupported_sources acceptingEnv
      { Sources := [{ Type_ := LogSourceType.ETW, Providers := [1, 2] },
                    { Type_ := LogSourceType.File, Providers := [] }] }
      ProcessState.initial
  obtain ⟨s3, h3, hg, hc, _, _, hout⟩ := hex 1 2 2 LogSourceType.File [] (by decide) rfl
  have hs : s3 = s1 := Except.ok.inj (h3.symm.trans h1)
  subst hs
  exact ⟨s3, h1, hg, hc, hw, (herr (Or.inr ⟨2, rfl⟩)).1, hout.trans (by decide)⟩

/-- C9: when the monitor construction fails for a provider collection,
`CreateEtwMonitor` returns normally, logs exactly one error line, the provider
validation message, with one write that carries the UTF-8 form of the time, the tag,
ERROR and that message with one line feed, and leaves `g_etwMon` as it was;
`StartMonitors` returns normally on every configuration, and on one whose providers are
that collection it keeps `g_etwMon` and adds that one error line after the warning
lines; `StartLogMonitor` returns true whenever the configuration is read. -/
theorem CreateEtwMonitor_failure_isolated (env : Env P M) (etwProviders : List P)
    (s : ProcessState P M) (e : Unit)
    (hfail : env.newEtwMonitor etwProviders = Except.error e) :
    (∃ s1, CreateEtwMonitor env etwProviders s = Except.ok s1 ∧
      s1.g_etwMon = s.g_etwMon ∧
      s1.traces = s.traces ++ [(TraceLevel.Error, invalidProvidersMessage)] ∧
      traceCount TraceLevel.Error s1 = traceCount TraceLevel.Error s + 1 ∧
      s1.stdout.length = s.stdout.length + 1 ∧
      s1.stdout = s.stdout ++ [invalidProvidersLine (timeAt env s.stdout.length)]) ∧
    (∀ settings : LoggerSettings P, ∃ s1, StartMonitors env settings s = Except.ok s1) ∧
    (∀ settings : LoggerSettings P, flattenProviders settings.Sources = etwProviders →
      etwProviders ≠ [] →
      ∃ s1, StartMonitors env settings s = Except.ok s1 ∧ s1.g_etwMon = s.g_etwMon ∧
        traceCount TraceLevel.Error s1 = traceCount TraceLevel.Error s + 1 ∧
        s1.stdout = s.stdout ++
          unsupportedSourceLines env s.stdout.length (unsupportedCount settings.Sources) ++
          [invalidProvidersLine
            (timeAt env (s.stdout.length + unsupportedCount settings.Sources))]) ∧
    (∀ (configPath : List Nat) (settings : LoggerSettings P),
      env.OpenConfigFile configPath = some settings →
      ∃ s1, StartLogMonitor env configPath s = Except.ok (true, s1)) := by
  have hne : TraceLevel.Warning ≠ TraceLevel.Error := by decide
  refine ⟨?_, ?_, ?_, ?_⟩
  · obtain ⟨s1, h1, _, g1, t1, o1⟩ := CreateEtwMonitor_spec env etwProviders s
    have w1 := CreateEtwMonitor_stdout env etwProviders s s1 h1
    simp only [constructionResult, constructionTraces, constructionLines, hfail]
      at g1 t1 o1 w1
    refine ⟨s1, h1, g1, t1, ?_, by simpa using o1, w1⟩
    simp [traceCount, t1]
  · intro settings
    obtain ⟨s1, h1, _⟩ := StartMonitors_spec env settings s
    exact ⟨s1, h1⟩
  · intro settings hflat hnonempty
    obtain ⟨s1, h1, _, g1, t1⟩ := StartMonitors_spec env settings s
    have w1 := StartMonitors_stdout env settings s s1 h1
    have hE : etwProviders.isEmpty = false := by
      cases hfl : etwProviders with
      | nil => exact absurd hfl hnonempty
      | cons p ps => rfl
    simp only [hflat, hE, constructionResult, constructionTraces, constructionLines, hfail]
      at g1 t1 w1
    refine ⟨s1, h1, by simpa using g1, ?_, by simpa using w1⟩
    simp [traceCount, t1, List.filter_append,
      filter_level_replicate_other TraceLevel.Error TraceLevel.Warning _ _ hne]
  · intro configPath settings hcfg
    obtain ⟨s1, h1, _⟩ := StartMonitors_spec env settings s
    exact ⟨s1, by simp [StartLogMonitor, hcfg, h1]⟩

theorem CreateEtwMonitor_failure_isolated_witness :
    (∃ s1, CreateEtwMonitor rejectingEnv [7] ProcessState.initial = Except.ok s1 ∧
      s1.g_etwMon = none ∧
      s1.traces = [(TraceLevel.Error, invalidProvidersMessage)] ∧
      traceCount TraceLevel.Error s1 = 1 ∧
      s1.stdout.length = 1 ∧
      s1.stdout = [L ("[2024-01-01T00:00:00.000Z][LOGMONITOR] ERROR: " ++
        "Invalid providers. Check them using 'logman query providers'\n")]) ∧
    (∃ s1, StartLogMonitor rejectingEnv [] ProcessState.initial = Except.ok (true, s1)) := by
  obtain ⟨⟨s1, h1, hg, ht, hc, hl, ho⟩, _, _, hstart⟩ :=
    CreateEtwMonitor_failure_isolated rejectingEnv [7] ProcessState.initial () rfl
  exact ⟨⟨s1, h1, hg, ht, hc, hl, ho.trans (by decide)⟩,
    hstart [] { Sources := [{ Type_ := LogSourceType.ETW, Providers := [7] }] } rfl⟩

end DispatcherFacts

end LogMonitor
